import Mathlib

/-!
Verification development for the Sora video web app
(`src/app/web_app.py` and `src/api/sora_api.py`).

The Python code is shallowly embedded: the background job functions
`create_video_async` / `remix_video_async` become pure functions over
oracles for the network (`submitRes`, `polls`) and for the wall clock
(`elapsedAfter k` = the value of `time.time() - start_time` measured at
the end of poll iteration `k`).  The global `job_status[job_id]` record
is tracked explicitly; the list of successive registry writes is
returned as a history.  Filesystem side effects (directory creation,
content downloads, metadata writes) are collected in an effects list.
The `while` loop is run with explicit fuel; a separate lemma shows that
the wall-clock lower bound coming from `time.sleep(3)` makes 201 units
of fuel sufficient, so the fuel is a harmless device.
-/

namespace Sora

/-- Rendering of an optional Python string value inside an f-string
(`None` prints as `"None"`). -/
def pyStr : Option String → String
  | none => "None"
  | some s => s

/-- Python `int()` applied to a (non-negative or negative) rational:
truncation toward zero. -/
def pyInt (q : ℚ) : Int := if 0 ≤ q then ⌊q⌋ else ⌈q⌉

/-- `min(75, int((elapsed / max_wait_time) * 75))` with
`max_wait_time = 600`, from the poll loops of `web_app.py`. -/
def timeProgress (e : ℚ) : Int := min 75 (pyInt (e / 600 * 75))

/-- The slice of a remote video object (`response.json()` of
`GET /videos/{id}`) that the orchestration code reads: `.get('id')`,
`.get('status')` and the remote progress field (present on the wire,
never read by the poll loops). -/
structure RemoteView where
  id : Option String := none
  status : Option String := none
  progress : Option Int := none
  deriving Repr, DecidableEq

/-- A Python exception as observed by the handlers in `web_app.py`:
its class name, `str(e)`, and `e.response.text` when the exception
carries an HTTP response (the handlers store the raw text; whether
`json.loads` succeeds on it is not modelled, both outcomes keep the
same information). -/
structure PyExn where
  name : String
  msg : String
  responseText : Option String := none
  deriving Repr, DecidableEq

/-- The `error_details` dictionary built by the exception handlers. -/
structure ErrorDetails where
  error_type : String
  error_message : String
  api_response_text : Option String := none
  deriving Repr, DecidableEq

/-- One value of `job_status[job_id]`.  Dictionary `update` calls are
modelled as record updates that leave the other fields unchanged. -/
structure JobRecord where
  status : String
  progress : Int
  message : String
  video_id : Option String := none
  video_path : Option String := none
  thumbnail_path : Option String := none
  result : Option RemoteView := none
  error_details : Option ErrorDetails := none
  deriving Repr, DecidableEq

/-- The `job_status[job_id].update({'status': 'error', ...})` merge done
by the outer `except` block of both async functions. -/
def applyError (r : JobRecord) (e : PyExn) : JobRecord :=
  { r with
    status := "error"
    message := "Error: " ++ e.msg
    error_details := some
      { error_type := e.name
        error_message := e.msg
        api_response_text := e.responseText } }

/-- Filesystem / network side effects of the download phase. -/
inductive Effect
  | mkdir (dir : String)
  | saveVideo (video_id : Option String) (filename : String) (variant : String)
  | download (video_id : Option String) (dir : String)
  | thumbnail (video_id : Option String) (filename : String)
  | writeMetadata (filename : String)
  deriving Repr, DecidableEq

/-- Whether an effect fetches remote content (a download of some
variant). -/
def Effect.isContentFetch : Effect → Bool
  | .saveVideo _ _ _ => true
  | .download _ _ => true
  | .thumbnail _ _ => true
  | _ => false

/-- The observable outcome of one background task: the sequence of
registry writes (in order), the side effects performed, the number of
`client.retrieve` calls made by the poll loop, and a marker that is set
only when the model ran out of fuel before the Python loop would have
ended (no theorem below concerns such runs). -/
structure TaskRun where
  hist : List JobRecord
  effects : List Effect
  pollsMade : ℕ
  fuelOut : Bool
  deriving Repr, DecidableEq

/-- State of the `while elapsed < max_wait_time` loop of
`create_video_async`: iteration counter (= number of `retrieve` calls
made so far), the current value of the Python variable `elapsed`, the
current registry record, the current value of `final_result`
(`none` while not yet assigned), and the registry write history. -/
structure LoopSt where
  k : ℕ
  eUsed : ℚ
  record : JobRecord
  finalRes : Option RemoteView
  hist : List JobRecord
  deriving Repr, DecidableEq

/-- Outcome of one iteration body. -/
inductive StepOut (σ : Type)
  | cont (s : σ)
  | brk (s : σ)
  | exn (e : PyExn) (s : σ)
  deriving Repr, DecidableEq

/-- How the loop ended. -/
inductive LoopExit
  | broke
  | condFalse
  | raised (e : PyExn)
  | fuelOut
  deriving Repr, DecidableEq

/-- One iteration of the poll loop of `create_video_async`
(web_app.py lines 133-165).  There is no `try`/`except` around
`client.retrieve` here: a polling error escapes the loop at once. -/
def createStep (polls : ℕ → Except PyExn RemoteView) (elA : ℕ → ℚ)
    (s : LoopSt) : StepOut LoopSt :=
  match polls s.k with
  | .error e => .exn e { s with k := s.k + 1 }
  | .ok v =>
    let cp : Int := 10 + timeProgress s.eUsed
    -- writing a record, then `time.sleep(poll_interval)` and
    -- `elapsed = time.time() - start_time`
    let next : JobRecord → LoopSt := fun r =>
      { k := s.k + 1
        eUsed := elA s.k
        record := r
        finalRes := some v
        hist := s.hist ++ [r] }
    if v.status = some "queued" then
      .cont (next { s.record with
                    progress := cp
                    message := "Video queued on server..." })
    else if v.status = some "in_progress" then
      .cont (next { s.record with
                    progress := cp
                    message := "Generating video..." })
    else if v.status = some "completed" then
      .brk { s with k := s.k + 1, finalRes := some v }
    else if v.status = some "failed" then
      .brk { s with k := s.k + 1, finalRes := some v }
    else
      .cont (next { s.record with
                    progress := cp
                    message := "Status: " ++ pyStr v.status ++ "..." })

/-- The `while elapsed < max_wait_time` loop, with fuel. -/
def runCreateLoop (polls : ℕ → Except PyExn RemoteView) (elA : ℕ → ℚ) :
    ℕ → LoopSt → LoopSt × LoopExit
  | 0, s => if s.eUsed < 600 then (s, .fuelOut) else (s, .condFalse)
  | fuel + 1, s =>
    if s.eUsed < 600 then
      match createStep polls elA s with
      | .cont s' => runCreateLoop polls elA fuel s'
      | .brk s' => (s', .broke)
      | .exn e s' => (s', .raised e)
    else (s, .condFalse)

/-- The code after the poll loop of `create_video_async`
(web_app.py lines 167-212): on `final_result['status'] == 'completed'`
download the three variants and write the metadata sidecar, otherwise
write the `failed` record.  If `final_result` was never assigned the
`NameError` lands in the outer `except` block.  Content downloads are
modelled as succeeding (a failure there would take the generic error
path, which no claim concerns). -/
def createFinish (vid : Option String) (s : LoopSt) : TaskRun :=
  match s.finalRes with
  | none =>
    let e : PyExn :=
      { name := "NameError"
        msg := "name 'final_result' is not defined" }
    { hist := s.hist ++ [applyError s.record e]
      effects := []
      pollsMade := s.k
      fuelOut := false }
  | some fin =>
    if fin.status = some "completed" then
      let video_dir := "videos/" ++ pyStr vid
      let video_file := video_dir ++ "/" ++ pyStr vid ++ ".mp4"
      let thumbnail_file := video_dir ++ "/thumbnail.webp"
      let spritesheet_file := video_dir ++ "/spritesheet.jpg"
      let rD : JobRecord :=
        { s.record with
          status := "downloading"
          progress := 90
          message := "Video completed, downloading..." }
      let rC : JobRecord :=
        { rD with
          status := "completed"
          progress := 100
          message := "Video ready!"
          video_id := vid
          video_path := some video_file
          thumbnail_path := some thumbnail_file
          result := some fin }
      { hist := s.hist ++ [rD, rC]
        effects := [.mkdir video_dir,
          .saveVideo vid video_file "video",
          .saveVideo vid thumbnail_file "thumbnail",
          .saveVideo vid spritesheet_file "spritesheet",
          .writeMetadata (video_dir ++ "/metadata.json")]
        pollsMade := s.k
        fuelOut := false }
    else
      let rF : JobRecord :=
        { s.record with
          status := "failed"
          message := "Video generation failed: " ++ pyStr fin.status
          result := some fin }
      { hist := s.hist ++ [rF]
        effects := []
        pollsMade := s.k
        fuelOut := false }

/-- The initial registry record of `create_video_async`
(`job_status[job_id] = {'status': 'creating', ...}`). -/
def createR0 : JobRecord :=
  { status := "creating"
    progress := 0
    message := "Initiating video creation..." }

/-- The registry record after a successful `client.create` submission. -/
def createR1 (res : RemoteView) : JobRecord :=
  { createR0 with
    video_id := res.id
    progress := 10
    message := "Video creation started, waiting for completion..." }

/-- The poll-loop state of `create_video_async` as the loop is entered. -/
def createInit (res : RemoteView) : LoopSt :=
  { k := 0, eUsed := 0, record := createR1 res, finalRes := none,
    hist := [createR0, createR1 res] }

/-- `create_video_async` (web_app.py lines 63-240), as a function of
the outcome of `client.create` (`submitRes`), the outcomes of the
successive `client.retrieve` calls (`polls`), and the wall-clock
readings (`elA`).  The temporary reference-image cleanup in the
`finally` block touches no registry state and is not modelled. -/
def create_video_async (submitRes : Except PyExn RemoteView)
    (polls : ℕ → Except PyExn RemoteView) (elA : ℕ → ℚ) (fuel : ℕ) :
    TaskRun :=
  match submitRes with
  | .error e =>
    { hist := [createR0, applyError createR0 e]
      effects := []
      pollsMade := 0
      fuelOut := false }
  | .ok res =>
    match runCreateLoop polls elA fuel (createInit res) with
    | (s, .fuelOut) =>
      { hist := s.hist, effects := [], pollsMade := s.k, fuelOut := true }
    | (s, .raised e) =>
      { hist := s.hist ++ [applyError s.record e]
        effects := []
        pollsMade := s.k
        fuelOut := false }
    | (s, .broke) => createFinish res.id s
    | (s, .condFalse) => createFinish res.id s

/-- State of the poll loop of `remix_video_async`: like `LoopSt` plus
the `consecutive_errors` counter. -/
structure RemixSt where
  k : ℕ
  eUsed : ℚ
  record : JobRecord
  finalRes : Option RemoteView
  hist : List JobRecord
  consec : ℕ
  deriving Repr, DecidableEq

/-- One iteration of the poll loop of `remix_video_async`
(web_app.py lines 316-369).  Here `client.retrieve` runs inside a
`try`/`except`: an error increments `consecutive_errors`, re-raises
after the 5th consecutive failure, and otherwise only rewrites the
status message (the `'progress'` key is rewritten with its current
value, leaving the record's progress unchanged) and lets the loop
sleep and continue. -/
def remixStep (polls : ℕ → Except PyExn RemoteView) (elA : ℕ → ℚ)
    (s : RemixSt) : StepOut RemixSt :=
  match polls s.k with
  | .ok v =>
    -- `consecutive_errors = 0` on a successful poll
    let cp : Int := 10 + timeProgress s.eUsed
    let next : JobRecord → RemixSt := fun r =>
      { k := s.k + 1
        eUsed := elA s.k
        record := r
        finalRes := some v
        hist := s.hist ++ [r]
        consec := 0 }
    if v.status = some "queued" then
      .cont (next { s.record with
                    progress := cp
                    message := "Remix queued on server..." })
    else if v.status = some "in_progress" then
      .cont (next { s.record with
                    progress := cp
                    message := "Generating remixed video..." })
    else if v.status = some "completed" then
      .brk { s with k := s.k + 1, consec := 0, finalRes := some v }
    else if v.status = some "failed" then
      .brk { s with k := s.k + 1, consec := 0, finalRes := some v }
    else
      .cont (next { s.record with
                    progress := cp
                    message := "Status: " ++ pyStr v.status ++ "..." })
  | .error _ =>
    let c := s.consec + 1
    if 5 ≤ c then
      .exn { name := "Exception"
             msg := "Failed to poll status after 5 attempts" }
        { s with k := s.k + 1, consec := c }
    else
      let r : JobRecord :=
        { s.record with
          message := "Polling video status... (retry " ++ toString c ++ ")" }
      .cont { k := s.k + 1
              eUsed := elA s.k
              record := r
              finalRes := s.finalRes
              hist := s.hist ++ [r]
              consec := c }

/-- The `while elapsed < max_wait_time` loop of `remix_video_async`,
with fuel. -/
def runRemixLoop (polls : ℕ → Except PyExn RemoteView) (elA : ℕ → ℚ) :
    ℕ → RemixSt → RemixSt × LoopExit
  | 0, s => if s.eUsed < 600 then (s, .fuelOut) else (s, .condFalse)
  | fuel + 1, s =>
    if s.eUsed < 600 then
      match remixStep polls elA s with
      | .cont s' => runRemixLoop polls elA fuel s'
      | .brk s' => (s', .broke)
      | .exn e s' => (s', .raised e)
    else (s, .condFalse)

/-- The code after the poll loop of `remix_video_async`
(web_app.py lines 371-428): on `completed` download the remix video
and the thumbnail and write the metadata sidecar, otherwise write the
`failed` record; an unassigned `final_result` raises `NameError` into
the outer `except` block. -/
def remixFinish (rvid : Option String) (s : RemixSt) : TaskRun :=
  match s.finalRes with
  | none =>
    let e : PyExn :=
      { name := "NameError"
        msg := "name 'final_result' is not defined" }
    { hist := s.hist ++ [applyError s.record e]
      effects := []
      pollsMade := s.k
      fuelOut := false }
  | some fin =>
    if fin.status = some "completed" then
      let video_dir := "videos/" ++ pyStr rvid
      -- `client.download` writes `os.path.join(output_dir, f"{video_id}.mp4")`
      let video_file := video_dir ++ "/" ++ pyStr rvid ++ ".mp4"
      let thumbnail_file := video_dir ++ "/thumbnail.webp"
      let rD : JobRecord :=
        { s.record with
          status := "downloading"
          progress := 90
          message := "Remix completed, downloading..." }
      let rC : JobRecord :=
        { rD with
          status := "completed"
          progress := 100
          message := "Remixed video ready!"
          video_id := rvid
          video_path := some video_file
          thumbnail_path := some thumbnail_file
          result := some fin }
      { hist := s.hist ++ [rD, rC]
        effects := [.mkdir video_dir,
          .download rvid video_dir,
          .thumbnail rvid thumbnail_file,
          .writeMetadata (video_dir ++ "/metadata.json")]
        pollsMade := s.k
        fuelOut := false }
    else
      let rF : JobRecord :=
        { s.record with
          status := "failed"
          message := "Video remix failed: " ++ pyStr fin.status
          result := some fin }
      { hist := s.hist ++ [rF]
        effects := []
        pollsMade := s.k
        fuelOut := false }

/-- The initial registry record of `remix_video_async`
(`job_status[job_id] = {'status': 'remixing', ...}`). -/
def remixR0 : JobRecord :=
  { status := "remixing"
    progress := 0
    message := "Initiating video remix..." }

/-- The registry record after a successful `client.remix` submission. -/
def remixR1 (res : RemoteView) : JobRecord :=
  { remixR0 with
    video_id := res.id
    progress := 10
    message := "Video remix started, waiting for completion..." }

/-- The poll-loop state of `remix_video_async` as the loop is entered. -/
def remixInit (res : RemoteView) : RemixSt :=
  { k := 0, eUsed := 0, record := remixR1 res, finalRes := none,
    hist := [remixR0, remixR1 res], consec := 0 }

/-- `remix_video_async` (web_app.py lines 243-452), as a function of
the outcome of `client.remix` (`submitRes`), the outcomes of the
successive `client.retrieve` calls (`polls`), and the wall-clock
readings (`elA`). -/
def remix_video_async (submitRes : Except PyExn RemoteView)
    (polls : ℕ → Except PyExn RemoteView) (elA : ℕ → ℚ) (fuel : ℕ) :
    TaskRun :=
  match submitRes with
  | .error e =>
    { hist := [remixR0, applyError remixR0 e]
      effects := []
      pollsMade := 0
      fuelOut := false }
  | .ok res =>
    match runRemixLoop polls elA fuel (remixInit res) with
    | (s, .fuelOut) =>
      { hist := s.hist, effects := [], pollsMade := s.k, fuelOut := true }
    | (s, .raised e) =>
      { hist := s.hist ++ [applyError s.record e]
        effects := []
        pollsMade := s.k
        fuelOut := false }
    | (s, .broke) => remixFinish res.id s
    | (s, .condFalse) => remixFinish res.id s

/-! ### The Remote Generation Service Adapter (`src/api/sora_api.py`)

Each client method is embedded against an oracle for the HTTP layer.
A call to `requests.post` / `requests.get` / `requests.delete` either
returns a response (status code, body text, parsed JSON body) or
raises a transport error (`requests.exceptions.RequestException`);
`raise_for_status()` turns a status code of 400 or above into an
`HTTPError` carrying the response.  The list of HTTP requests actually
issued is returned alongside the result. -/

/-- An HTTP request as assembled by the client. -/
structure HttpRequest where
  method : String
  url : String
  multipart : Bool := false
  mime : Option String := none
  deriving Repr, DecidableEq

/-- An HTTP response, with its parsed JSON body of type `α`. -/
structure HttpResponse (α : Type) where
  statusCode : ℕ
  text : String
  body : α
  deriving Repr, DecidableEq

/-- Outcome of one wire call. -/
inductive NetResult (α : Type)
  | ok (resp : HttpResponse α)
  | connError (msg : String)
  deriving Repr, DecidableEq

def baseUrl : String := "https://api.openai.com/v1"

/-- `os.path.splitext(p)[1].lower()`, modelled as the suffix of `p`
from its last dot (empty when `p` has no dot), lower-cased. -/
def extOf (p : String) : String :=
  let cs := p.toList
  let revTail := cs.reverse.takeWhile (fun c => c ≠ '.')
  if revTail.length = cs.length then ""
  else String.toLower (String.mk ('.' :: revTail.reverse))

/-- The MIME-type table of `SoraAPIClient.create`
(sora_api.py lines 211-217). -/
def mimeFor (input_reference : String) : String :=
  let ext := extOf input_reference
  if ext = ".jpg" then "image/jpeg"
  else if ext = ".jpeg" then "image/jpeg"
  else if ext = ".png" then "image/png"
  else if ext = ".webp" then "image/webp"
  else "image/jpeg"

/-- Shared tail of every client call: `raise_for_status()` plus the
translation of a transport error. -/
def httpCall {α : Type} (net : HttpRequest → NetResult α)
    (req : HttpRequest) : Except PyExn α × List HttpRequest :=
  match net req with
  | .connError m => (.error { name := "RequestException", msg := m }, [req])
  | .ok resp =>
    if 400 ≤ resp.statusCode then
      (.error { name := "HTTPError"
                msg := toString resp.statusCode
                responseText := some resp.text }, [req])
    else (.ok resp.body, [req])

/-- `SoraAPIClient.create` (sora_api.py lines 129-289), without the
`wait_for_completion=True` tail (the web app always passes `False`;
no claim concerns the waiting tail).  `fsExists` models the local
filesystem as seen by `open`: when the reference image path does not
exist, `open` raises `FileNotFoundError`, which the handler re-raises
as `ValueError("Reference image file not found: ...")` — before any
`requests.post` is reached. -/
def SoraAPIClient.create (fsExists : String → Bool)
    (net : HttpRequest → NetResult RemoteView)
    (input_reference : Option String) :
    Except PyExn RemoteView × List HttpRequest :=
  let url := baseUrl ++ "/videos"
  match input_reference with
  | some p =>
    if fsExists p then
      httpCall net
        { method := "POST", url := url, multipart := true,
          mime := some (mimeFor p) }
    else
      (.error { name := "ValueError"
                msg := "Reference image file not found: " ++ p }, [])
  | none =>
    httpCall net { method := "POST", url := url }

/-- `{id, object, deleted}` returned by `DELETE /videos/{id}`. -/
structure DeleteResult where
  id : String
  deleted : Bool
  deriving Repr, DecidableEq

/-- `SoraAPIClient.delete` (sora_api.py lines 723-778): it assembles
the DELETE request and issues it unconditionally — there is no check
of any local or remote job state before the wire call. -/
def SoraAPIClient.delete (net : HttpRequest → NetResult DeleteResult)
    (video_id : String) : Except PyExn DeleteResult × List HttpRequest :=
  httpCall net { method := "DELETE", url := baseUrl ++ "/videos/" ++ video_id }

/-! ### The HTTP endpoints of `src/app/web_app.py` -/

/-- A call from an endpoint into the `SoraAPIClient`. -/
inductive ClientCall
  | retrieve (video_id : String)
  | delete (video_id : String)
  deriving Repr, DecidableEq

/-- A JSON response of an endpoint, flattened: the HTTP status code and
the fields the handlers put into the body (`none` = key absent). -/
structure EndpointResp where
  code : ℕ
  success : Bool
  error : Option String := none
  message : Option String := none
  status : Option (Option String) := none
  api_deleted : Option Bool := none
  local_deleted : Option Bool := none
  api_error : Option (Option String) := none
  deriving Repr, DecidableEq

/-- `delete_video`, the `DELETE /api/delete/<video_id>` endpoint
(web_app.py lines 1039-1145), as a function of the outcomes of
`client.retrieve` and `client.delete`.  The status pre-check swallows
any `retrieve` exception and proceeds to the delete; a remote status of
`queued`/`in_progress` returns 400 before any delete call. -/
def delete_video (video_id : String)
    (retrieveO : Except PyExn RemoteView)
    (deleteO : Except PyExn DeleteResult) :
    EndpointResp × List ClientCall :=
  let proceed : EndpointResp × List ClientCall :=
    match deleteO with
    | .ok _ =>
      ({ code := 200
         success := true
         message := some "Video deleted from API (local files preserved)"
         api_deleted := some true
         local_deleted := some false
         api_error := some none },
       [.retrieve video_id, .delete video_id])
    | .error e =>
      ({ code := 200
         success := false
         message := some "API delete failed"
         api_deleted := some false
         local_deleted := some false
         api_error := some (some e.msg) },
       [.retrieve video_id, .delete video_id])
  match retrieveO with
  | .ok v =>
    if v.status = some "queued" ∨ v.status = some "in_progress" then
      ({ code := 400
         success := false
         error := some ("Cannot delete video while it is " ++ pyStr v.status
           ++ ". Please wait until the video is completed or has failed.")
         status := some v.status },
       [.retrieve video_id])
    else proceed
  | .error _ => proceed

/-- The per-id subtree of the `videos/` directory: each entry is one
`videos/{id}/` directory together with the names of the files in it. -/
structure LocalStore where
  dirs : List (String × List String)
  deriving Repr, DecidableEq

/-- `os.path.exists(f"videos/{video_id}")`. -/
def LocalStore.hasDir (fs : LocalStore) (video_id : String) : Bool :=
  fs.dirs.any (fun p => p.1 == video_id)

/-- Whether the file `videos/{video_id}/{fname}` exists. -/
def LocalStore.hasFile (fs : LocalStore) (video_id fname : String) : Bool :=
  fs.dirs.any (fun p => p.1 == video_id && p.2.contains fname)

/-- `delete_local_video`, the `DELETE /api/delete-local/<video_id>`
endpoint (web_app.py lines 1148-1214): if `videos/{video_id}` exists it
is removed recursively (`shutil.rmtree`) and 200 is returned, otherwise
the endpoint returns 404 (the handler reaches its `else` branch and
returns; nothing is raised). -/
def delete_local_video (fs : LocalStore) (video_id : String) :
    EndpointResp × LocalStore :=
  if fs.hasDir video_id then
    ({ code := 200
       success := true
       message := some ("Local files deleted for video " ++ video_id)
       local_deleted := some true },
     { dirs := fs.dirs.filter (fun p => ¬ p.1 == video_id) })
  else
    ({ code := 404
       success := false
       error := some ("Local files not found for video " ++ video_id) },
     fs)

/-! ### Gallery enumeration (`get_gallery`, web_app.py lines 703-821) -/

/-- One entry of `os.listdir('videos')`: either a subdirectory (with
the names of the files inside it, the `saved_at` value its
`metadata.json` yields — `none` when the sidecar is missing, unreadable,
corrupt or lacks the key — and the ISO string derived from the mp4
file's modification time used as fallback), or a plain file (with the
`saved_at` value parsing it as JSON yields, relevant only to `.json`
files). -/
inductive GItem
  | dir (name : String) (files : List String) (savedAt : Option String)
      (mtimeIso : String)
  | file (name : String) (savedAt : Option String)
  deriving Repr, DecidableEq

/-- The contents of the `videos/` directory, in `os.listdir` order. -/
structure GalleryFS where
  items : List GItem
  deriving Repr, DecidableEq

/-- `os.path.exists(os.path.join('videos', n))`: any directory entry
(file or directory) with that name. -/
def GalleryFS.existsName (fs : GalleryFS) (n : String) : Bool :=
  fs.items.any fun it =>
    match it with
    | .dir name _ _ _ => name == n
    | .file name _ => name == n

/-- Python `filename.replace('.json', '')` on the character list:
remove the occurrences of `".json"`, scanning left to right. -/
def stripJsonChars : List Char → List Char
  | '.' :: 'j' :: 's' :: 'o' :: 'n' :: rest => stripJsonChars rest
  | c :: rest => c :: stripJsonChars rest
  | [] => []

/-- Python `filename.replace('.json', '')`. -/
def stripJson (s : String) : String := String.mk (stripJsonChars s.toList)

/-- Python `filename.endswith('.json')`. -/
def endsWithJson (s : String) : Bool :=
  s.toList.reverse.take 5 == ['n', 'o', 's', 'j', '.']

/-- One element of the `videos` list built by `get_gallery`. -/
structure GalleryEntry where
  id : String
  video_path : String
  thumbnail_path : Option String
  metadata_saved_at : Option String
  created_at : String
  deriving Repr, DecidableEq

/-- The first scan of `get_gallery`: directory-layout entries.  A
directory `videos/{id}/` yields an entry iff `videos/{id}/{id}.mp4`
exists; metadata is tolerated to be absent or corrupt (empty dict),
`created_at` falls back to the mp4 modification time. -/
def galleryDirEntries (fs : GalleryFS) : List GalleryEntry :=
  fs.items.filterMap fun it =>
    match it with
    | .dir name files savedAt mtimeIso =>
      if files.contains (name ++ ".mp4") then
        some { id := name
               video_path := "/videos/" ++ name ++ "/" ++ name ++ ".mp4"
               thumbnail_path :=
                 if files.contains "thumbnail.webp" then
                   some ("/videos/" ++ name ++ "/thumbnail.webp")
                 else none
               metadata_saved_at := savedAt
               created_at := savedAt.getD mtimeIso }
      else none
    | .file _ _ => none

/-- The second scan of `get_gallery`: legacy flat-layout entries.  A
plain file `{f}` with `f.endswith('.json')` yields the id
`f.replace('.json','')`, kept iff `videos/{id}.mp4` exists; the
thumbnail path is emitted without an existence check. -/
def galleryLegacyEntries (fs : GalleryFS) : List GalleryEntry :=
  fs.items.filterMap fun it =>
    match it with
    | .dir _ _ _ _ => none
    | .file name savedAt =>
      if endsWithJson name then
        let video_id := stripJson name
        if fs.existsName (video_id ++ ".mp4") then
          some { id := video_id
                 video_path := "/videos/" ++ video_id ++ ".mp4"
                 thumbnail_path :=
                   some ("/videos/" ++ video_id ++ "_thumbnail.webp")
                 metadata_saved_at := savedAt
                 created_at := savedAt.getD "" }
        else none
      else none

/-- Python string comparison `a <= b`: lexicographic by code point. -/
def pyLeChars : List Char → List Char → Bool
  | [], _ => true
  | _ :: _, [] => false
  | a :: as, b :: bs =>
    if a == b then pyLeChars as bs else decide (a.toNat < b.toNat)

/-- Python string comparison `a <= b`. -/
def pyStrLe (a b : String) : Bool := pyLeChars a.toList b.toList

/-- `get_gallery` (web_app.py lines 741-812): the directory scan
followed by the legacy scan, then
`videos.sort(key=lambda x: x.get('created_at', ''), reverse=True)`
(Python's stable sort is modelled by a stable insertion sort; every
statement proved below is invariant under permutation). -/
def get_gallery (fs : GalleryFS) : List GalleryEntry :=
  List.insertionSort (fun a b => pyStrLe b.created_at a.created_at = true)
    (galleryDirEntries fs ++ galleryLegacyEntries fs)

/-- The ids returned by the gallery. -/
def galleryIds (fs : GalleryFS) : List String :=
  (get_gallery fs).map (fun e => e.id)

/-! ### Concrete inputs used in counterexamples and witnesses -/

/-- An archive holding the id `vid_1` in both layouts
(directory `videos/vid_1/vid_1.mp4` plus root files `vid_1.json` and
`vid_1.mp4`) and the id `vid_2` in the legacy layout but with only its
`vid_2.mp4` media file (no `vid_2.json` sidecar). -/
def galleryCexFS : GalleryFS :=
  { items := [.dir "vid_1" ["vid_1.mp4"] none "t1",
              .file "vid_1.json" none,
              .file "vid_1.mp4" none,
              .file "vid_2.mp4" none] }

/-- A submission result carrying the remote id `vid_1`. -/
def okSubmit : RemoteView := { id := some "vid_1", status := some "queued" }

/-- A poll oracle whose every call raises a transport error. -/
def errPolls : ℕ → Except PyExn RemoteView := fun _ =>
  .error { name := "ConnectionError", msg := "connection reset" }

/-- A poll oracle that always reports remote status `cancelled`. -/
def cancelledPolls : ℕ → Except PyExn RemoteView := fun _ =>
  .ok { id := some "vid_1", status := some "cancelled" }

/-- A poll oracle that always reports remote status `failed`. -/
def failedPolls : ℕ → Except PyExn RemoteView := fun _ =>
  .ok { id := some "vid_1", status := some "failed" }

/-- Wall-clock readings 300, 601, 601, ...: the second loop-condition
check still passes, the third fails. -/
def cexElapsed : ℕ → ℚ := fun k => if k = 0 then 300 else 601

/-! ## Claims -/

/-- **C4.** Submitting a create request whose reference image path does
not exist fails synchronously with the `ReferenceNotFound`-kind error
(`ValueError("Reference image file not found: ...")`, raised when
`open` fails with `FileNotFoundError`), and the list of HTTP requests
issued is empty: the failure is reported by the `create` call itself,
before any network request is made, whatever the network oracle would
answer. -/
theorem C4_create_missing_reference_fails_before_network
    (fsExists : String → Bool) (net : HttpRequest → NetResult RemoteView)
    (p : String) (h : fsExists p = false) :
    SoraAPIClient.create fsExists net (some p) =
      (.error { name := "ValueError"
                msg := "Reference image file not found: " ++ p }, []) := by
  simp [SoraAPIClient.create, h]

/-- Witness for C4 at a concrete input: an empty filesystem and a
network oracle that would fail loudly if it were ever consulted. -/
theorem C4_create_missing_reference_fails_before_network_witness :
    (fun _ : String => false) "img.png" = false ∧
    SoraAPIClient.create (fun _ => false)
        (fun _ => NetResult.connError "network must not be reached")
        (some "img.png") =
      (.error { name := "ValueError"
                msg := "Reference image file not found: img.png" }, []) :=
  ⟨rfl, C4_create_missing_reference_fails_before_network _ _ _ rfl⟩

/-- **C8.** `delete_local_video` on an id with no per-id directory
returns HTTP 404 (a well-formed response; nothing is raised) and leaves
the store untouched; on an id whose directory exists it removes that
directory with everything under it, so afterwards neither the directory
nor any file in it — in particular the primary media blob
`{id}.mp4` — exists. -/
theorem C8_delete_local_video (fs : LocalStore) (video_id : String) :
    (fs.hasDir video_id = false →
      delete_local_video fs video_id =
        ({ code := 404
           success := false
           error := some ("Local files not found for video " ++ video_id) },
         fs)) ∧
    (fs.hasDir video_id = true →
      (delete_local_video fs video_id).1 =
        { code := 200
          success := true
          message := some ("Local files deleted for video " ++ video_id)
          local_deleted := some true } ∧
      (delete_local_video fs video_id).2.hasDir video_id = false ∧
      ∀ f, (delete_local_video fs video_id).2.hasFile video_id f = false) := by
  constructor
  · intro h
    simp [delete_local_video, h]
  · intro h
    refine ⟨by simp [delete_local_video, h], ?_, ?_⟩
    · simp only [delete_local_video, h, if_true]
      simp [LocalStore.hasDir, List.any_eq_true, List.mem_filter]
    · intro f
      simp only [delete_local_video, h, if_true]
      simp [LocalStore.hasFile, List.any_eq_false, List.mem_filter]
      tauto

/-- Witness for C8: a store holding one directory
`videos/vid_1/{vid_1.mp4, metadata.json}`, exercised on the missing id
`vid_2` and on the present id `vid_1`. -/
theorem C8_delete_local_video_witness :
    ( ({ dirs := [("vid_1", ["vid_1.mp4", "metadata.json"])] } :
        LocalStore).hasDir "vid_2" = false ∧
      delete_local_video { dirs := [("vid_1", ["vid_1.mp4", "metadata.json"])] }
          "vid_2" =
        ({ code := 404
           success := false
           error := some "Local files not found for video vid_2" },
         { dirs := [("vid_1", ["vid_1.mp4", "metadata.json"])] }) ) ∧
    ( ({ dirs := [("vid_1", ["vid_1.mp4", "metadata.json"])] } :
        LocalStore).hasDir "vid_1" = true ∧
      (delete_local_video { dirs := [("vid_1", ["vid_1.mp4", "metadata.json"])] }
          "vid_1").2.hasFile "vid_1" "vid_1.mp4" = false ) :=
  ⟨⟨by decide,
    (C8_delete_local_video _ "vid_2").1 (by decide)⟩,
   ⟨by decide,
    (((C8_delete_local_video _ "vid_1").2 (by decide)).2.2 "vid_1.mp4")⟩⟩

/-- **C9.** The Adapter's `delete` assembles the DELETE request and
issues it unconditionally — the request trace is the single DELETE for
every network oracle, so no local state check guards the wire call —
while the orchestrating `delete_video` endpoint pre-checks the
retrieved status: on `queued` or `in_progress` it returns HTTP 400 with
only the `retrieve` call in its trace, never invoking the Adapter's
delete. -/
theorem C9_adapter_delete_unconditional_endpoint_prechecks :
    (∀ (net : HttpRequest → NetResult DeleteResult) (video_id : String),
      (SoraAPIClient.delete net video_id).2 =
        [{ method := "DELETE", url := baseUrl ++ "/videos/" ++ video_id }]) ∧
    (∀ (video_id : String) (v : RemoteView)
        (deleteO : Except PyExn DeleteResult),
      v.status = some "queued" ∨ v.status = some "in_progress" →
      delete_video video_id (.ok v) deleteO =
        ({ code := 400
           success := false
           error := some ("Cannot delete video while it is " ++ pyStr v.status
             ++ ". Please wait until the video is completed or has failed.")
           status := some v.status },
         [.retrieve video_id]) ∧
      ClientCall.delete video_id ∉ (delete_video video_id (.ok v) deleteO).2) := by
  constructor
  · intro net video_id
    unfold SoraAPIClient.delete httpCall
    cases net { method := "DELETE", url := baseUrl ++ "/videos/" ++ video_id } with
    | ok resp =>
      by_cases h : 400 ≤ resp.statusCode <;> simp [h]
    | connError m => simp
  · intro video_id v deleteO h
    have hv : (v.status = some "queued" ∨ v.status = some "in_progress") = True := by
      simp [h]
    refine ⟨?_, ?_⟩ <;> simp [delete_video, hv]

/-- Witness for C9's second part: a `queued` remote view. -/
theorem C9_adapter_delete_unconditional_endpoint_prechecks_witness :
    (({ status := some "queued" } : RemoteView).status = some "queued" ∨
      ({ status := some "queued" } : RemoteView).status = some "in_progress") ∧
    delete_video "vid_1" (.ok { status := some "queued" })
        (.ok { id := "vid_1", deleted := true }) =
      ({ code := 400
         success := false
         error := some ("Cannot delete video while it is queued. " ++
           "Please wait until the video is completed or has failed.")
         status := some (some "queued") },
       [.retrieve "vid_1"]) :=
  ⟨Or.inl rfl, by
    have h := (C9_adapter_delete_unconditional_endpoint_prechecks.2 "vid_1"
      { status := some "queued" } (.ok { id := "vid_1", deleted := true })
      (Or.inl rfl)).1
    simpa using h⟩

/-- **C10.** In the `delete_video` endpoint, when the status pre-check
(`client.retrieve`) raises — whatever the exception — it is swallowed:
the endpoint still calls the Adapter's `delete`, and the response is
determined solely by the delete outcome (success body on `.ok`,
failure body carrying the delete error message on `.error`); the
exception `e` from `retrieve` influences neither. -/
theorem C10_delete_endpoint_swallows_precheck_failure
    (video_id : String) (e : PyExn)
    (deleteO : Except PyExn DeleteResult) :
    ClientCall.delete video_id ∈
      (delete_video video_id (.error e) deleteO).2 ∧
    (∀ d : DeleteResult, deleteO = .ok d →
      delete_video video_id (.error e) deleteO =
        ({ code := 200
           success := true
           message := some "Video deleted from API (local files preserved)"
           api_deleted := some true
           local_deleted := some false
           api_error := some none },
         [.retrieve video_id, .delete video_id])) ∧
    (∀ e' : PyExn, deleteO = .error e' →
      delete_video video_id (.error e) deleteO =
        ({ code := 200
           success := false
           message := some "API delete failed"
           api_deleted := some false
           local_deleted := some false
           api_error := some (some e'.msg) },
         [.retrieve video_id, .delete video_id])) := by
  refine ⟨?_, ?_, ?_⟩
  · cases deleteO <;> simp [delete_video]
  · intro d hd
    subst hd
    simp [delete_video]
  · intro e' hd
    subst hd
    simp [delete_video]

/-- Witness for C10: a failing `retrieve`, exercised with both a
succeeding and a failing delete. -/
theorem C10_delete_endpoint_swallows_precheck_failure_witness :
    ((Except.ok { id := "vid_1", deleted := true } :
        Except PyExn DeleteResult) = .ok { id := "vid_1", deleted := true } ∧
      delete_video "vid_1" (.error { name := "HTTPError", msg := "404" })
          (.ok { id := "vid_1", deleted := true }) =
        ({ code := 200
           success := true
           message := some "Video deleted from API (local files preserved)"
           api_deleted := some true
           local_deleted := some false
           api_error := some none },
         [.retrieve "vid_1", .delete "vid_1"])) ∧
    ((Except.error { name := "HTTPError", msg := "409" } :
        Except PyExn DeleteResult) = .error { name := "HTTPError", msg := "409" } ∧
      delete_video "vid_1" (.error { name := "HTTPError", msg := "404" })
          (.error { name := "HTTPError", msg := "409" }) =
        ({ code := 200
           success := false
           message := some "API delete failed"
           api_deleted := some false
           local_deleted := some false
           api_error := some (some "409") },
         [.retrieve "vid_1", .delete "vid_1"])) :=
  ⟨⟨rfl, (C10_delete_endpoint_swallows_precheck_failure "vid_1"
      { name := "HTTPError", msg := "404" } _).2.1 _ rfl⟩,
   ⟨rfl, (C10_delete_endpoint_swallows_precheck_failure "vid_1"
      { name := "HTTPError", msg := "404" } _).2.2 _ rfl⟩⟩

/-- **C5, counterexample.**  On `galleryCexFS` the claim fails twice:
the id `vid_1`, present in both layouts, appears twice in the
enumeration (no deduplication happens), and the legacy flat-layout
entry `vid_2.mp4` does not appear at all (the legacy scan is keyed on
`.json` files, so an `{id}.mp4` without an `{id}.json` is skipped). -/
theorem C5_counterexample :
    (galleryIds galleryCexFS).count "vid_1" = 2 ∧
    "vid_2" ∉ galleryIds galleryCexFS := by
  constructor
  · decide
  · decide

/-- The multiset of gallery ids is that of the two scans concatenated
(the final sort only permutes entries). -/
theorem galleryIds_perm (fs : GalleryFS) :
    (galleryIds fs).Perm
      ((galleryDirEntries fs ++ galleryLegacyEntries fs).map
        (fun e => e.id)) := by
  unfold galleryIds get_gallery
  exact (List.perm_insertionSort _ _).map _

/-- A per-id directory with its primary mp4 contributes its id. -/
theorem mem_galleryDir_ids (fs : GalleryFS) (name : String)
    (files : List String) (sa : Option String) (mt : String)
    (hmem : GItem.dir name files sa mt ∈ fs.items)
    (hmp4 : files.contains (name ++ ".mp4") = true) :
    name ∈ (galleryDirEntries fs).map (fun e => e.id) := by
  simp only [galleryDirEntries, List.map_filterMap, List.mem_filterMap]
  have hmp4' : (name ++ ".mp4") ∈ files := by simpa using hmp4
  exact ⟨GItem.dir name files sa mt, hmem, by simp [hmp4, hmp4']⟩

/-- A legacy `.json` file whose derived id has its mp4 in the root
contributes that id. -/
theorem mem_galleryLegacy_ids (fs : GalleryFS) (f : String)
    (sa : Option String)
    (hmem : GItem.file f sa ∈ fs.items)
    (hjson : endsWithJson f = true)
    (hmp4 : fs.existsName (stripJson f ++ ".mp4") = true) :
    stripJson f ∈ (galleryLegacyEntries fs).map (fun e => e.id) := by
  simp only [galleryLegacyEntries, List.map_filterMap, List.mem_filterMap]
  exact ⟨GItem.file f sa, hmem, by simp [hjson, hmp4]⟩

/-- **C5, amended.**  Gallery enumeration returns the concatenation of
the two layouts' scans, with no deduplication:
(i) every per-id directory entry whose primary `{id}.mp4` is present
appears in the result;
(ii) a legacy flat-layout entry appears provided both its `{f}.json`
sidecar and the derived `{id}.mp4` exist in the archive root (an
`{id}.mp4` alone is not enumerated, since the legacy scan iterates over
`.json` files);
(iii) an id present in both layouts appears at least twice — once per
layout — rather than once. -/
theorem C5_gallery_union_without_dedup :
    (∀ (fs : GalleryFS) (name : String) (files : List String)
        (sa : Option String) (mt : String),
      GItem.dir name files sa mt ∈ fs.items →
      files.contains (name ++ ".mp4") = true →
      name ∈ galleryIds fs) ∧
    (∀ (fs : GalleryFS) (f : String) (sa : Option String),
      GItem.file f sa ∈ fs.items →
      endsWithJson f = true →
      fs.existsName (stripJson f ++ ".mp4") = true →
      stripJson f ∈ galleryIds fs) ∧
    (∀ (fs : GalleryFS) (name : String) (files : List String)
        (sa : Option String) (mt : String) (f : String) (sa2 : Option String),
      GItem.dir name files sa mt ∈ fs.items →
      files.contains (name ++ ".mp4") = true →
      GItem.file f sa2 ∈ fs.items →
      endsWithJson f = true →
      stripJson f = name →
      fs.existsName (name ++ ".mp4") = true →
      2 ≤ (galleryIds fs).count name) := by
  refine ⟨?_, ?_, ?_⟩
  · intro fs name files sa mt hmem hmp4
    have h := mem_galleryDir_ids fs name files sa mt hmem hmp4
    rw [(galleryIds_perm fs).mem_iff]
    simp only [List.map_append, List.mem_append]
    exact Or.inl h
  · intro fs f sa hmem hjson hmp4
    have h := mem_galleryLegacy_ids fs f sa hmem hjson hmp4
    rw [(galleryIds_perm fs).mem_iff]
    simp only [List.map_append, List.mem_append]
    exact Or.inr h
  · intro fs name files sa mt f sa2 hdir hmp4 hfile hjson hstrip hex
    have h1 := mem_galleryDir_ids fs name files sa mt hdir hmp4
    have h2 := mem_galleryLegacy_ids fs f sa2 hfile hjson (by rwa [hstrip])
    rw [hstrip] at h2
    rw [(galleryIds_perm fs).count_eq]
    rw [List.map_append, List.count_append]
    have c1 : 1 ≤ ((galleryDirEntries fs).map (fun e => e.id)).count name :=
      List.count_pos_iff.mpr h1
    have c2 : 1 ≤ ((galleryLegacyEntries fs).map (fun e => e.id)).count name :=
      List.count_pos_iff.mpr h2
    omega

/-- Witness for C5's amended statement, on `galleryCexFS`. -/
theorem C5_gallery_union_without_dedup_witness :
    "vid_1" ∈ galleryIds galleryCexFS ∧
    2 ≤ (galleryIds galleryCexFS).count "vid_1" :=
  ⟨C5_gallery_union_without_dedup.1 galleryCexFS "vid_1" ["vid_1.mp4"] none "t1"
      (by decide) (by decide),
   C5_gallery_union_without_dedup.2.2 galleryCexFS "vid_1" ["vid_1.mp4"] none
      "t1" "vid_1.json" none (by decide) (by decide) (by decide) (by decide)
      (by decide) (by decide)⟩

/-! ### Characterization of single poll-loop iterations -/

section Steps

variable (polls : ℕ → Except PyExn RemoteView) (elA : ℕ → ℚ)

theorem createStep_error {s : LoopSt} {e : PyExn}
    (hp : polls s.k = .error e) :
    createStep polls elA s = .exn e { s with k := s.k + 1 } := by
  unfold createStep
  rw [hp]

theorem createStep_ok {s : LoopSt} {v : RemoteView}
    (hp : polls s.k = .ok v) :
    createStep polls elA s =
      (if v.status = some "queued" then
        .cont { k := s.k + 1, eUsed := elA s.k
                record := { s.record with
                  progress := 10 + timeProgress s.eUsed
                  message := "Video queued on server..." }
                finalRes := some v
                hist := s.hist ++ [{ s.record with
                  progress := 10 + timeProgress s.eUsed
                  message := "Video queued on server..." }] }
      else if v.status = some "in_progress" then
        .cont { k := s.k + 1, eUsed := elA s.k
                record := { s.record with
                  progress := 10 + timeProgress s.eUsed
                  message := "Generating video..." }
                finalRes := some v
                hist := s.hist ++ [{ s.record with
                  progress := 10 + timeProgress s.eUsed
                  message := "Generating video..." }] }
      else if v.status = some "completed" then
        .brk { s with k := s.k + 1, finalRes := some v }
      else if v.status = some "failed" then
        .brk { s with k := s.k + 1, finalRes := some v }
      else
        .cont { k := s.k + 1, eUsed := elA s.k
                record := { s.record with
                  progress := 10 + timeProgress s.eUsed
                  message := "Status: " ++ pyStr v.status ++ "..." }
                finalRes := some v
                hist := s.hist ++ [{ s.record with
                  progress := 10 + timeProgress s.eUsed
                  message := "Status: " ++ pyStr v.status ++ "..." }] }) := by
  unfold createStep
  rw [hp]

theorem remixStep_error {s : RemixSt} {e : PyExn}
    (hp : polls s.k = .error e) :
    remixStep polls elA s =
      (if 5 ≤ s.consec + 1 then
        .exn { name := "Exception"
               msg := "Failed to poll status after 5 attempts" }
          { s with k := s.k + 1, consec := s.consec + 1 }
      else
        .cont { k := s.k + 1, eUsed := elA s.k
                record := { s.record with
                  message := "Polling video status... (retry "
                    ++ toString (s.consec + 1) ++ ")" }
                finalRes := s.finalRes
                hist := s.hist ++ [{ s.record with
                  message := "Polling video status... (retry "
                    ++ toString (s.consec + 1) ++ ")" }]
                consec := s.consec + 1 }) := by
  unfold remixStep
  rw [hp]

theorem remixStep_ok {s : RemixSt} {v : RemoteView}
    (hp : polls s.k = .ok v) :
    remixStep polls elA s =
      (if v.status = some "queued" then
        .cont { k := s.k + 1, eUsed := elA s.k
                record := { s.record with
                  progress := 10 + timeProgress s.eUsed
                  message := "Remix queued on server..." }
                finalRes := some v
                hist := s.hist ++ [{ s.record with
                  progress := 10 + timeProgress s.eUsed
                  message := "Remix queued on server..." }]
                consec := 0 }
      else if v.status = some "in_progress" then
        .cont { k := s.k + 1, eUsed := elA s.k
                record := { s.record with
                  progress := 10 + timeProgress s.eUsed
                  message := "Generating remixed video..." }
                finalRes := some v
                hist := s.hist ++ [{ s.record with
                  progress := 10 + timeProgress s.eUsed
                  message := "Generating remixed video..." }]
                consec := 0 }
      else if v.status = some "completed" then
        .brk { s with k := s.k + 1, consec := 0, finalRes := some v }
      else if v.status = some "failed" then
        .brk { s with k := s.k + 1, consec := 0, finalRes := some v }
      else
        .cont { k := s.k + 1, eUsed := elA s.k
                record := { s.record with
                  progress := 10 + timeProgress s.eUsed
                  message := "Status: " ++ pyStr v.status ++ "..." }
                finalRes := some v
                hist := s.hist ++ [{ s.record with
                  progress := 10 + timeProgress s.eUsed
                  message := "Status: " ++ pyStr v.status ++ "..." }]
                consec := 0 }) := by
  unfold remixStep
  rw [hp]

theorem runCreateLoop_zero (s : LoopSt) :
    runCreateLoop polls elA 0 s =
      if s.eUsed < 600 then (s, .fuelOut) else (s, .condFalse) := rfl

theorem runCreateLoop_succ (fuel : ℕ) (s : LoopSt) :
    runCreateLoop polls elA (fuel + 1) s =
      if s.eUsed < 600 then
        match createStep polls elA s with
        | .cont s' => runCreateLoop polls elA fuel s'
        | .brk s' => (s', .broke)
        | .exn e s' => (s', .raised e)
      else (s, .condFalse) := rfl

theorem runRemixLoop_zero (s : RemixSt) :
    runRemixLoop polls elA 0 s =
      if s.eUsed < 600 then (s, .fuelOut) else (s, .condFalse) := rfl

theorem runRemixLoop_succ (fuel : ℕ) (s : RemixSt) :
    runRemixLoop polls elA (fuel + 1) s =
      if s.eUsed < 600 then
        match remixStep polls elA s with
        | .cont s' => runRemixLoop polls elA fuel s'
        | .brk s' => (s', .broke)
        | .exn e s' => (s', .raised e)
      else (s, .condFalse) := rfl

end Steps

/-- For a non-negative elapsed value the Python truncation is the floor,
and `int((e / 600) * 75)` is `⌊75 * e / 600⌋`. -/
theorem timeProgress_eq_floor (e : ℚ) (he : 0 ≤ e) :
    timeProgress e = min 75 ⌊75 * e / 600⌋ := by
  unfold timeProgress pyInt
  rw [if_pos (by positivity)]
  congr 2
  ring

/-- **C7.** At every poll iteration whose retrieved status is
non-terminal for the loop (anything other than `completed`/`failed`,
which covers all non-terminal remote statuses), the progress value
written to the registry equals `10 + min(75, floor(75 * elapsed / 600))`
where `elapsed` is the current value of the wall-clock variable
(`0` at the first iteration, the reading `time.time() - start_time`
taken at the end of the previous iteration afterwards).  The formula
mentions the elapsed time only — the remote-reported `progress` field
of the retrieved view does not occur in it — and this holds for the
create and the remix loop alike. -/
theorem C7_progress_is_elapsed_formula
    (polls : ℕ → Except PyExn RemoteView) (elA : ℕ → ℚ) :
    (∀ (s : LoopSt) (v : RemoteView),
      polls s.k = .ok v →
      v.status ≠ some "completed" → v.status ≠ some "failed" →
      0 ≤ s.eUsed →
      ∃ s', createStep polls elA s = .cont s' ∧
        s'.hist = s.hist ++ [s'.record] ∧
        s'.record.progress = 10 + min 75 ⌊75 * s.eUsed / 600⌋) ∧
    (∀ (s : RemixSt) (v : RemoteView),
      polls s.k = .ok v →
      v.status ≠ some "completed" → v.status ≠ some "failed" →
      0 ≤ s.eUsed →
      ∃ s', remixStep polls elA s = .cont s' ∧
        s'.hist = s.hist ++ [s'.record] ∧
        s'.record.progress = 10 + min 75 ⌊75 * s.eUsed / 600⌋) := by
  constructor
  · intro s v hp hc hf he
    rw [createStep_ok polls elA hp, ← timeProgress_eq_floor _ he]
    by_cases hq : v.status = some "queued"
    · rw [if_pos hq]
      exact ⟨_, rfl, rfl, rfl⟩
    · rw [if_neg hq]
      by_cases hip : v.status = some "in_progress"
      · rw [if_pos hip]
        exact ⟨_, rfl, rfl, rfl⟩
      · rw [if_neg hip, if_neg hc, if_neg hf]
        exact ⟨_, rfl, rfl, rfl⟩
  · intro s v hp hc hf he
    rw [remixStep_ok polls elA hp, ← timeProgress_eq_floor _ he]
    by_cases hq : v.status = some "queued"
    · rw [if_pos hq]
      exact ⟨_, rfl, rfl, rfl⟩
    · rw [if_neg hq]
      by_cases hip : v.status = some "in_progress"
      · rw [if_pos hip]
        exact ⟨_, rfl, rfl, rfl⟩
      · rw [if_neg hip, if_neg hc, if_neg hf]
        exact ⟨_, rfl, rfl, rfl⟩

/-- Witness for C7: the first create iteration (elapsed `0`) and a
remix iteration with elapsed `120` (formula value `10 + 15 = 25`),
both on a `queued` status. -/
theorem C7_progress_is_elapsed_formula_witness :
    ((fun _ : ℕ => (Except.ok { status := some "queued" } :
        Except PyExn RemoteView)) 0 = .ok { status := some "queued" }) ∧
    (∃ s', createStep (fun _ => .ok { status := some "queued" }) (fun _ => 3)
        { k := 0, eUsed := 0
          record := { status := "creating", progress := 10, message := "m" }
          finalRes := none, hist := [] } = .cont s' ∧
      s'.record.progress = 10) ∧
    (∃ s', remixStep (fun _ => .ok { status := some "queued" }) (fun _ => 123)
        { k := 1, eUsed := 120
          record := { status := "remixing", progress := 25, message := "m" }
          finalRes := none, hist := [], consec := 0 } = .cont s' ∧
      s'.record.progress = 25) := by
  refine ⟨rfl, ?_, ?_⟩
  · obtain ⟨s', h1, _h2, h3⟩ :=
      (C7_progress_is_elapsed_formula (fun _ => .ok { status := some "queued" })
        (fun _ => 3)).1
        { k := 0, eUsed := 0
          record := { status := "creating", progress := 10, message := "m" }
          finalRes := none, hist := [] }
        { status := some "queued" } rfl (by decide) (by decide) le_rfl
    exact ⟨s', h1, by rw [h3]; norm_num⟩
  · obtain ⟨s', h1, _h2, h3⟩ :=
      (C7_progress_is_elapsed_formula (fun _ => .ok { status := some "queued" })
        (fun _ => 123)).2
        { k := 1, eUsed := 120
          record := { status := "remixing", progress := 25, message := "m" }
          finalRes := none, hist := [], consec := 0 }
        { status := some "queued" } rfl (by decide) (by decide) (by norm_num)
    exact ⟨s', h1, by rw [h3]; norm_num⟩

/-! ### How each loop exit shapes the task outcome -/

theorem create_async_raised (polls : ℕ → Except PyExn RemoteView)
    (elA : ℕ → ℚ) (fuel : ℕ) (res : RemoteView) (s' : LoopSt) (e : PyExn)
    (h : runCreateLoop polls elA fuel (createInit res) = (s', .raised e)) :
    create_video_async (.ok res) polls elA fuel =
      { hist := s'.hist ++ [applyError s'.record e]
        effects := []
        pollsMade := s'.k
        fuelOut := false } := by
  simp only [create_video_async, h]

theorem create_async_broke (polls : ℕ → Except PyExn RemoteView)
    (elA : ℕ → ℚ) (fuel : ℕ) (res : RemoteView) (s' : LoopSt)
    (h : runCreateLoop polls elA fuel (createInit res) = (s', .broke)) :
    create_video_async (.ok res) polls elA fuel = createFinish res.id s' := by
  simp only [create_video_async, h]

theorem create_async_condFalse (polls : ℕ → Except PyExn RemoteView)
    (elA : ℕ → ℚ) (fuel : ℕ) (res : RemoteView) (s' : LoopSt)
    (h : runCreateLoop polls elA fuel (createInit res) = (s', .condFalse)) :
    create_video_async (.ok res) polls elA fuel = createFinish res.id s' := by
  simp only [create_video_async, h]

theorem remix_async_raised (polls : ℕ → Except PyExn RemoteView)
    (elA : ℕ → ℚ) (fuel : ℕ) (res : RemoteView) (s' : RemixSt) (e : PyExn)
    (h : runRemixLoop polls elA fuel (remixInit res) = (s', .raised e)) :
    remix_video_async (.ok res) polls elA fuel =
      { hist := s'.hist ++ [applyError s'.record e]
        effects := []
        pollsMade := s'.k
        fuelOut := false } := by
  simp only [remix_video_async, h]

theorem remix_async_broke (polls : ℕ → Except PyExn RemoteView)
    (elA : ℕ → ℚ) (fuel : ℕ) (res : RemoteView) (s' : RemixSt)
    (h : runRemixLoop polls elA fuel (remixInit res) = (s', .broke)) :
    remix_video_async (.ok res) polls elA fuel = remixFinish res.id s' := by
  simp only [remix_video_async, h]

theorem remix_async_condFalse (polls : ℕ → Except PyExn RemoteView)
    (elA : ℕ → ℚ) (fuel : ℕ) (res : RemoteView) (s' : RemixSt)
    (h : runRemixLoop polls elA fuel (remixInit res) = (s', .condFalse)) :
    remix_video_async (.ok res) polls elA fuel = remixFinish res.id s' := by
  simp only [remix_video_async, h]

/-- **C1, counterexample.**  The claim asserts that *both* the create
task and the remix task tolerate up to 5 consecutive polling failures
without halting.  In `create_video_async` the `client.retrieve` call is
not wrapped in any `try`/`except` inside the loop: on this concrete run
the very first polling error aborts the task — exactly one `retrieve`
call is made and the task ends with local status `error`, its loop
halted by the 1st failure rather than the 5th. -/
theorem C1_counterexample :
    (create_video_async (.ok okSubmit) errPolls (fun _ => 0) 300).pollsMade
      = 1 ∧
    ((create_video_async (.ok okSubmit) errPolls (fun _ => 0) 300).hist.getLast?).map
      (fun r => r.status) = some "error" := by
  constructor
  · decide
  · decide

/-- Running the remix loop from a state owing `n` more consecutive
errors (counter at `5 - n`) against a poll oracle that keeps failing:
the loop makes exactly `n` more `retrieve` calls and aborts by raising
`Exception("Failed to poll status after 5 attempts")`. -/
theorem runRemixLoop_consec_errors (polls : ℕ → Except PyExn RemoteView)
    (elA : ℕ → ℚ) (ee : ℕ → PyExn) :
    ∀ (n : ℕ) (s : RemixSt) (fuel : ℕ),
      1 ≤ n → s.consec + n = 5 →
      (∀ i, i < n → polls (s.k + i) = .error (ee (s.k + i))) →
      (∀ i, i + 1 < n → elA (s.k + i) < 600) →
      s.eUsed < 600 → n ≤ fuel →
      ∃ s', runRemixLoop polls elA fuel s =
          (s', .raised { name := "Exception"
                         msg := "Failed to poll status after 5 attempts" }) ∧
        s'.k = s.k + n := by
  intro n
  induction n with
  | zero => intro s fuel h1; exact absurd h1 (by norm_num)
  | succ n ih =>
    intro s fuel _h1 hc hp helA hU hf
    obtain ⟨f, rfl⟩ : ∃ f, fuel = f + 1 := ⟨fuel - 1, by omega⟩
    rw [runRemixLoop_succ, if_pos hU,
      remixStep_error polls elA (by simpa using hp 0 (by omega))]
    by_cases hn : n = 0
    · subst hn
      rw [if_pos (by omega)]
      exact ⟨_, rfl, by simp⟩
    · rw [if_neg (by omega)]
      obtain ⟨s', hrun, hk⟩ := ih
        { k := s.k + 1
          eUsed := elA s.k
          record := { s.record with
            message := "Polling video status... (retry "
              ++ toString (s.consec + 1) ++ ")" }
          finalRes := s.finalRes
          hist := s.hist ++ [{ s.record with
            message := "Polling video status... (retry "
              ++ toString (s.consec + 1) ++ ")" }]
          consec := s.consec + 1 }
        f (by omega) (by simp; omega)
        (fun i hi => by
          have h := hp (i + 1) (by omega)
          have heq : s.k + 1 + i = s.k + (i + 1) := by omega
          show polls (s.k + 1 + i) = .error (ee (s.k + 1 + i))
          rw [heq]; exact h)
        (fun i hi => by
          have h := helA (i + 1) (by omega)
          have heq : s.k + 1 + i = s.k + (i + 1) := by omega
          show elA (s.k + 1 + i) < 600
          rw [heq]; exact h)
        (by simpa using helA 0 (by omega)) (by omega)
      refine ⟨s', hrun, ?_⟩
      simp only at hk
      omega

/-- **C1, amended.**  Only the remix task tolerates transient polling
errors, and there only up to 5 consecutive ones: (i) with fewer than 5
consecutive failures, a failing `retrieve` increments the counter and
rewrites only the status message (status and progress unchanged), and
the loop continues; (ii) a successful poll resets the counter to zero
(whether the loop then continues or breaks); (iii) the 5th consecutive
failure raises, which (iv) aborts the remix task with local status
`error` after exactly 5 `retrieve` calls.  (v) The create task has no
such tolerance: its first polling error aborts the task with local
status `error` after a single `retrieve` call. -/
theorem C1_only_remix_tolerates_polling_errors :
    (∀ (polls : ℕ → Except PyExn RemoteView) (elA : ℕ → ℚ)
        (s : RemixSt) (e : PyExn),
      polls s.k = .error e → s.consec + 1 < 5 →
      ∃ s', remixStep polls elA s = .cont s' ∧
        s'.consec = s.consec + 1 ∧
        s'.record.status = s.record.status ∧
        s'.record.progress = s.record.progress ∧
        s'.record.message =
          "Polling video status... (retry " ++ toString (s.consec + 1) ++ ")" ∧
        s'.hist = s.hist ++ [s'.record]) ∧
    (∀ (polls : ℕ → Except PyExn RemoteView) (elA : ℕ → ℚ)
        (s : RemixSt) (v : RemoteView),
      polls s.k = .ok v →
      (∀ s', remixStep polls elA s = .cont s' → s'.consec = 0) ∧
      (∀ s', remixStep polls elA s = .brk s' → s'.consec = 0)) ∧
    (∀ (polls : ℕ → Except PyExn RemoteView) (elA : ℕ → ℚ)
        (s : RemixSt) (e : PyExn),
      polls s.k = .error e → 5 ≤ s.consec + 1 →
      remixStep polls elA s =
        .exn { name := "Exception"
               msg := "Failed to poll status after 5 attempts" }
          { s with k := s.k + 1, consec := s.consec + 1 }) ∧
    (∀ (polls : ℕ → Except PyExn RemoteView) (elA : ℕ → ℚ)
        (ee : ℕ → PyExn) (res : RemoteView) (fuel : ℕ),
      (∀ k, k < 5 → polls k = .error (ee k)) →
      (∀ k, k + 1 < 5 → elA k < 600) →
      5 ≤ fuel →
      (remix_video_async (.ok res) polls elA fuel).pollsMade = 5 ∧
      ((remix_video_async (.ok res) polls elA fuel).hist.getLast?).map
        (fun r => (r.status, r.message)) =
        some ("error", "Error: Failed to poll status after 5 attempts")) ∧
    (∀ (polls : ℕ → Except PyExn RemoteView) (elA : ℕ → ℚ)
        (e : PyExn) (res : RemoteView) (fuel : ℕ),
      polls 0 = .error e → 1 ≤ fuel →
      (create_video_async (.ok res) polls elA fuel).pollsMade = 1 ∧
      ((create_video_async (.ok res) polls elA fuel).hist.getLast?).map
        (fun r => r.status) = some "error") := by
  refine ⟨?_, ?_, ?_, ?_, ?_⟩
  · intro polls elA s e hp hlt
    rw [remixStep_error polls elA hp, if_neg (by omega)]
    exact ⟨_, rfl, rfl, rfl, rfl, rfl, rfl⟩
  · intro polls elA s v hp
    rw [remixStep_ok polls elA hp]
    constructor <;> intro s' h' <;>
      [skip; skip] <;>
      · split_ifs at h' <;> cases h' <;> rfl
  · intro polls elA s e hp hge
    rw [remixStep_error polls elA hp, if_pos hge]
  · intro polls elA ee res fuel hp helA hf
    obtain ⟨s', hrun, hk⟩ := runRemixLoop_consec_errors polls elA ee 5
      (remixInit res) fuel (by norm_num) (by simp [remixInit])
      (fun i hi => by simpa [remixInit] using hp i hi)
      (fun i hi => by simpa [remixInit] using helA i hi)
      (by norm_num [remixInit]) hf
    rw [remix_async_raised polls elA fuel res s' _ hrun]
    constructor
    · simpa [remixInit] using hk
    · simp [applyError, List.getLast?_concat]
  · intro polls elA e res fuel hp hf
    obtain ⟨f, rfl⟩ : ∃ f, fuel = f + 1 := ⟨fuel - 1, by omega⟩
    have hcond : (createInit res).eUsed < 600 := by norm_num [createInit]
    have hrun : runCreateLoop polls elA (f + 1) (createInit res) =
        ({ createInit res with k := (createInit res).k + 1 }, .raised e) := by
      rw [runCreateLoop_succ, if_pos hcond, createStep_error polls elA hp]
    rw [create_async_raised polls elA (f + 1) res _ e hrun]
    constructor
    · simp [createInit]
    · simp [applyError, List.getLast?_concat]

/-- Witness for C1's amended statement: the always-failing poll oracle
drives the remix task to `error` after 5 polls and the create task to
`error` after 1 poll. -/
theorem C1_only_remix_tolerates_polling_errors_witness :
    ((remix_video_async (.ok okSubmit) errPolls (fun _ => 0) 300).pollsMade = 5 ∧
      ((remix_video_async (.ok okSubmit) errPolls (fun _ => 0) 300).hist.getLast?).map
        (fun r => (r.status, r.message)) =
        some ("error", "Error: Failed to poll status after 5 attempts")) ∧
    ((create_video_async (.ok okSubmit) errPolls (fun _ => 1) 300).pollsMade = 1 ∧
      ((create_video_async (.ok okSubmit) errPolls (fun _ => 1) 300).hist.getLast?).map
        (fun r => r.status) = some "error") :=
  ⟨C1_only_remix_tolerates_polling_errors.2.2.2.1 errPolls (fun _ => 0)
      (fun _ => { name := "ConnectionError", msg := "connection reset" })
      okSubmit 300 (fun _ _ => rfl) (fun _ _ => by norm_num) (by norm_num),
   C1_only_remix_tolerates_polling_errors.2.2.2.2 errPolls (fun _ => 1)
      { name := "ConnectionError", msg := "connection reset" }
      okSubmit 300 rfl (by norm_num)⟩

/-- **C2, counterexample.**  The claim says a task whose polled status
becomes `cancelled` transitions directly — on observing that status,
without further polling — to local status `failed`.  On this concrete
create run every poll answers `cancelled`: the registry record written
on observing the first `cancelled` still has local status `creating`
(the generic `Status: cancelled...` progress message), a second
`retrieve` call is made afterwards, and `failed` is only reached when
the wall-clock budget expires. -/
theorem C2_counterexample :
    ((create_video_async (.ok okSubmit) cancelledPolls cexElapsed 300).hist.get? 2).map
      (fun r => (r.status, r.message)) =
      some ("creating", "Status: cancelled...") ∧
    (create_video_async (.ok okSubmit) cancelledPolls cexElapsed 300).pollsMade
      = 2 ∧
    ((create_video_async (.ok okSubmit) cancelledPolls cexElapsed 300).hist.getLast?).map
      (fun r => r.status) = some "failed" := by
  refine ⟨by decide, by decide, by decide⟩

/-- **C2, amended.**  For both tasks: (i)/(ii) a polled status of
`failed` breaks the loop at once — the task transitions without any
further polling; (iii)/(iv) whenever the loop ends with a last polled
status other than `completed` (which covers `failed`, and
`cancelled`/`incomplete` runs reaching the budget), the task appends
exactly one record with local status `failed` and performs no download
effect at all; (v)/(vi) the loop does not treat `cancelled` or
`incomplete` as terminal: observing them leaves the local status
unchanged and polling continues; (vii)/(viii) a task whose first poll
answers `failed` ends directly with one `retrieve` call, local status
`failed`, the failing snapshot attached, and no effects. -/
theorem C2_failed_direct_cancelled_keeps_polling :
    (∀ (polls : ℕ → Except PyExn RemoteView) (elA : ℕ → ℚ)
        (s : LoopSt) (v : RemoteView),
      polls s.k = .ok v → v.status = some "failed" →
      createStep polls elA s = .brk { s with k := s.k + 1, finalRes := some v }) ∧
    (∀ (polls : ℕ → Except PyExn RemoteView) (elA : ℕ → ℚ)
        (s : RemixSt) (v : RemoteView),
      polls s.k = .ok v → v.status = some "failed" →
      remixStep polls elA s =
        .brk { s with k := s.k + 1, consec := 0, finalRes := some v }) ∧
    (∀ (vid : Option String) (s : LoopSt) (fin : RemoteView),
      s.finalRes = some fin → fin.status ≠ some "completed" →
      (createFinish vid s).effects = [] ∧
      (createFinish vid s).hist = s.hist ++
        [{ s.record with
           status := "failed"
           message := "Video generation failed: " ++ pyStr fin.status
           result := some fin }]) ∧
    (∀ (vid : Option String) (s : RemixSt) (fin : RemoteView),
      s.finalRes = some fin → fin.status ≠ some "completed" →
      (remixFinish vid s).effects = [] ∧
      (remixFinish vid s).hist = s.hist ++
        [{ s.record with
           status := "failed"
           message := "Video remix failed: " ++ pyStr fin.status
           result := some fin }]) ∧
    (∀ (polls : ℕ → Except PyExn RemoteView) (elA : ℕ → ℚ)
        (s : LoopSt) (v : RemoteView),
      polls s.k = .ok v →
      (v.status = some "cancelled" ∨ v.status = some "incomplete") →
      ∃ s', createStep polls elA s = .cont s' ∧
        s'.record.status = s.record.status ∧ s'.k = s.k + 1) ∧
    (∀ (polls : ℕ → Except PyExn RemoteView) (elA : ℕ → ℚ)
        (s : RemixSt) (v : RemoteView),
      polls s.k = .ok v →
      (v.status = some "cancelled" ∨ v.status = some "incomplete") →
      ∃ s', remixStep polls elA s = .cont s' ∧
        s'.record.status = s.record.status ∧ s'.k = s.k + 1) ∧
    (∀ (polls : ℕ → Except PyExn RemoteView) (elA : ℕ → ℚ)
        (v res : RemoteView) (fuel : ℕ),
      polls 0 = .ok v → v.status = some "failed" → 1 ≤ fuel →
      (create_video_async (.ok res) polls elA fuel).effects = [] ∧
      (create_video_async (.ok res) polls elA fuel).pollsMade = 1 ∧
      ((create_video_async (.ok res) polls elA fuel).hist.getLast?).map
        (fun r => (r.status, r.result)) = some ("failed", some v)) ∧
    (∀ (polls : ℕ → Except PyExn RemoteView) (elA : ℕ → ℚ)
        (v res : RemoteView) (fuel : ℕ),
      polls 0 = .ok v → v.status = some "failed" → 1 ≤ fuel →
      (remix_video_async (.ok res) polls elA fuel).effects = [] ∧
      (remix_video_async (.ok res) polls elA fuel).pollsMade = 1 ∧
      ((remix_video_async (.ok res) polls elA fuel).hist.getLast?).map
        (fun r => (r.status, r.result)) = some ("failed", some v)) := by
  have hc : ∀ v : RemoteView, v.status = some "failed" →
      ¬ v.status = some "queued" := by intro v h; simp [h]
  have hc2 : ∀ v : RemoteView, v.status = some "failed" →
      ¬ v.status = some "in_progress" := by intro v h; simp [h]
  have hc3 : ∀ v : RemoteView, v.status = some "failed" →
      ¬ v.status = some "completed" := by intro v h; simp [h]
  refine ⟨?_, ?_, ?_, ?_, ?_, ?_, ?_, ?_⟩
  · intro polls elA s v hp hv
    rw [createStep_ok polls elA hp, if_neg (hc v hv), if_neg (hc2 v hv),
      if_neg (hc3 v hv), if_pos hv]
  · intro polls elA s v hp hv
    rw [remixStep_ok polls elA hp, if_neg (hc v hv), if_neg (hc2 v hv),
      if_neg (hc3 v hv), if_pos hv]
  · intro vid s fin hfin hne
    unfold createFinish
    rw [hfin]
    simp only [if_neg hne]
    constructor <;> trivial
  · intro vid s fin hfin hne
    unfold remixFinish
    rw [hfin]
    simp only [if_neg hne]
    constructor <;> trivial
  · intro polls elA s v hp hv
    have h1 : ¬ v.status = some "queued" := by
      rcases hv with h | h <;> simp [h]
    have h2 : ¬ v.status = some "in_progress" := by
      rcases hv with h | h <;> simp [h]
    have h3 : ¬ v.status = some "completed" := by
      rcases hv with h | h <;> simp [h]
    have h4 : ¬ v.status = some "failed" := by
      rcases hv with h | h <;> simp [h]
    rw [createStep_ok polls elA hp, if_neg h1, if_neg h2, if_neg h3, if_neg h4]
    exact ⟨_, rfl, rfl, rfl⟩
  · intro polls elA s v hp hv
    have h1 : ¬ v.status = some "queued" := by
      rcases hv with h | h <;> simp [h]
    have h2 : ¬ v.status = some "in_progress" := by
      rcases hv with h | h <;> simp [h]
    have h3 : ¬ v.status = some "completed" := by
      rcases hv with h | h <;> simp [h]
    have h4 : ¬ v.status = some "failed" := by
      rcases hv with h | h <;> simp [h]
    rw [remixStep_ok polls elA hp, if_neg h1, if_neg h2, if_neg h3, if_neg h4]
    exact ⟨_, rfl, rfl, rfl⟩
  · intro polls elA v res fuel hp hv hf
    obtain ⟨f, rfl⟩ : ∃ f, fuel = f + 1 := ⟨fuel - 1, by omega⟩
    have hcond : (createInit res).eUsed < 600 := by norm_num [createInit]
    have hrun : runCreateLoop polls elA (f + 1) (createInit res) =
        ({ createInit res with
           k := (createInit res).k + 1
           finalRes := some v }, .broke) := by
      rw [runCreateLoop_succ, if_pos hcond, createStep_ok polls elA hp,
        if_neg (hc v hv), if_neg (hc2 v hv), if_neg (hc3 v hv), if_pos hv]
    rw [create_async_broke polls elA (f + 1) res _ hrun]
    unfold createFinish
    simp only [if_neg (hc3 v hv)]
    refine ⟨by trivial, by simp [createInit], ?_⟩
    simp [List.getLast?_concat]
  · intro polls elA v res fuel hp hv hf
    obtain ⟨f, rfl⟩ : ∃ f, fuel = f + 1 := ⟨fuel - 1, by omega⟩
    have hcond : (remixInit res).eUsed < 600 := by norm_num [remixInit]
    have hrun : runRemixLoop polls elA (f + 1) (remixInit res) =
        ({ remixInit res with
           k := (remixInit res).k + 1
           consec := 0
           finalRes := some v }, .broke) := by
      rw [runRemixLoop_succ, if_pos hcond, remixStep_ok polls elA hp,
        if_neg (hc v hv), if_neg (hc2 v hv), if_neg (hc3 v hv), if_pos hv]
    rw [remix_async_broke polls elA (f + 1) res _ hrun]
    unfold remixFinish
    simp only [if_neg (hc3 v hv)]
    refine ⟨by trivial, by simp [remixInit], ?_⟩
    simp [List.getLast?_concat]

/-- Witness for C2's amended statement: a first poll answering `failed`
ends the create task directly as `failed` with no effects, and a
`cancelled` poll continues the loop. -/
theorem C2_failed_direct_cancelled_keeps_polling_witness :
    ((create_video_async (.ok okSubmit) failedPolls (fun _ => 0) 300).effects
        = [] ∧
      (create_video_async (.ok okSubmit) failedPolls (fun _ => 0) 300).pollsMade
        = 1 ∧
      ((create_video_async (.ok okSubmit) failedPolls (fun _ => 0) 300).hist.getLast?).map
        (fun r => (r.status, r.result)) =
        some ("failed", some { id := some "vid_1", status := some "failed" })) ∧
    (∃ s', createStep cancelledPolls (fun _ => 3)
        { k := 0, eUsed := 0
          record := { status := "creating", progress := 10, message := "m" }
          finalRes := none, hist := [] } = .cont s' ∧
      s'.record.status = "creating") := by
  constructor
  · exact C2_failed_direct_cancelled_keeps_polling.2.2.2.2.2.2.1
      failedPolls (fun _ => 0) _ okSubmit 300 rfl rfl (by norm_num)
  · obtain ⟨s', h1, h2, _⟩ :=
      C2_failed_direct_cancelled_keeps_polling.2.2.2.2.1
        cancelledPolls (fun _ => 3)
        { k := 0, eUsed := 0
          record := { status := "creating", progress := 10, message := "m" }
          finalRes := none, hist := [] }
        { id := some "vid_1", status := some "cancelled" } rfl (Or.inl rfl)
    exact ⟨s', h1, h2⟩

/-! ### Termination and shape of timed-out runs

Wall-clock readings satisfy `3 * (k + 1) ≤ elA k`, because iteration
`k` ends only after `k + 1` executions of `time.sleep(3)`; under that
lower bound the loop condition fails after at most 201 iterations, so
201 units of fuel rule the `fuelOut` artifact out. -/

theorem runCreateLoop_no_fuelOut (polls : ℕ → Except PyExn RemoteView)
    (elA : ℕ → ℚ) (hE : ∀ k : ℕ, 3 * ((k : ℚ) + 1) ≤ elA k) :
    ∀ (fuel : ℕ) (s : LoopSt),
      ((s.k = 0 ∧ s.eUsed = 0) ∨ (1 ≤ s.k ∧ s.eUsed = elA (s.k - 1))) →
      201 ≤ s.k + fuel →
      (runCreateLoop polls elA fuel s).2 ≠ .fuelOut := by
  intro fuel
  induction fuel with
  | zero =>
    intro s hinv hk
    rw [runCreateLoop_zero]
    have hno : ¬ s.eUsed < 600 := by
      rcases hinv with ⟨h0, _⟩ | ⟨h1, he⟩
      · omega
      · have hE' := hE (s.k - 1)
        have hcast : ((s.k - 1 : ℕ) : ℚ) + 1 = ((s.k : ℕ) : ℚ) := by
          have : s.k - 1 + 1 = s.k := by omega
          exact_mod_cast congrArg (fun n : ℕ => (n : ℚ)) this
        have hk' : (201 : ℚ) ≤ ((s.k : ℕ) : ℚ) := by
          exact_mod_cast (by omega : 201 ≤ s.k)
        rw [he]
        push_neg
        calc (600 : ℚ) ≤ 3 * ((s.k : ℕ) : ℚ) := by linarith
          _ = 3 * (((s.k - 1 : ℕ) : ℚ) + 1) := by rw [hcast]
          _ ≤ elA (s.k - 1) := hE'
    rw [if_neg hno]
    simp
  | succ fuel ih =>
    intro s hinv hk
    rw [runCreateLoop_succ]
    by_cases hcond : s.eUsed < 600
    · rw [if_pos hcond]
      cases hp : polls s.k with
      | error e =>
        rw [createStep_error polls elA hp]
        simp
      | ok v =>
        rw [createStep_ok polls elA hp]
        split_ifs with h1 h2 h3 h4
        · exact ih _ (Or.inr ⟨by show 1 ≤ s.k + 1; omega, rfl⟩)
            (by show 201 ≤ s.k + 1 + fuel; omega)
        · exact ih _ (Or.inr ⟨by show 1 ≤ s.k + 1; omega, rfl⟩)
            (by show 201 ≤ s.k + 1 + fuel; omega)
        · simp
        · simp
        · exact ih _ (Or.inr ⟨by show 1 ≤ s.k + 1; omega, rfl⟩)
            (by show 201 ≤ s.k + 1 + fuel; omega)
    · rw [if_neg hcond]
      simp

theorem runRemixLoop_no_fuelOut (polls : ℕ → Except PyExn RemoteView)
    (elA : ℕ → ℚ) (hE : ∀ k : ℕ, 3 * ((k : ℚ) + 1) ≤ elA k) :
    ∀ (fuel : ℕ) (s : RemixSt),
      ((s.k = 0 ∧ s.eUsed = 0) ∨ (1 ≤ s.k ∧ s.eUsed = elA (s.k - 1))) →
      201 ≤ s.k + fuel →
      (runRemixLoop polls elA fuel s).2 ≠ .fuelOut := by
  intro fuel
  induction fuel with
  | zero =>
    intro s hinv hk
    rw [runRemixLoop_zero]
    have hno : ¬ s.eUsed < 600 := by
      rcases hinv with ⟨h0, _⟩ | ⟨h1, he⟩
      · omega
      · have hE' := hE (s.k - 1)
        have hcast : ((s.k - 1 : ℕ) : ℚ) + 1 = ((s.k : ℕ) : ℚ) := by
          have : s.k - 1 + 1 = s.k := by omega
          exact_mod_cast congrArg (fun n : ℕ => (n : ℚ)) this
        have hk' : (201 : ℚ) ≤ ((s.k : ℕ) : ℚ) := by
          exact_mod_cast (by omega : 201 ≤ s.k)
        rw [he]
        push_neg
        calc (600 : ℚ) ≤ 3 * ((s.k : ℕ) : ℚ) := by linarith
          _ = 3 * (((s.k - 1 : ℕ) : ℚ) + 1) := by rw [hcast]
          _ ≤ elA (s.k - 1) := hE'
    rw [if_neg hno]
    simp
  | succ fuel ih =>
    intro s hinv hk
    rw [runRemixLoop_succ]
    by_cases hcond : s.eUsed < 600
    · rw [if_pos hcond]
      cases hp : polls s.k with
      | error e =>
        rw [remixStep_error polls elA hp]
        by_cases h5 : 5 ≤ s.consec + 1
        · rw [if_pos h5]
          simp
        · rw [if_neg h5]
          exact ih _ (Or.inr ⟨by show 1 ≤ s.k + 1; omega, rfl⟩)
            (by show 201 ≤ s.k + 1 + fuel; omega)
      | ok v =>
        rw [remixStep_ok polls elA hp]
        split_ifs with h1 h2 h3 h4
        · exact ih _ (Or.inr ⟨by show 1 ≤ s.k + 1; omega, rfl⟩)
            (by show 201 ≤ s.k + 1 + fuel; omega)
        · exact ih _ (Or.inr ⟨by show 1 ≤ s.k + 1; omega, rfl⟩)
            (by show 201 ≤ s.k + 1 + fuel; omega)
        · simp
        · simp
        · exact ih _ (Or.inr ⟨by show 1 ≤ s.k + 1; omega, rfl⟩)
            (by show 201 ≤ s.k + 1 + fuel; omega)
    · rw [if_neg hcond]
      simp

/-- When every poll succeeds with a status the loop does not break on,
the create loop can only end by the `while` condition turning false (or
by fuel, excluded separately); the final `final_result` is the last
polled view, the iteration counter only grows, and it grows strictly
whenever at least one iteration runs. -/
theorem runCreateLoop_nonterminal (polls : ℕ → Except PyExn RemoteView)
    (elA : ℕ → ℚ) (v : ℕ → RemoteView)
    (hp : ∀ k, polls k = .ok (v k))
    (hnt : ∀ k, (v k).status ≠ some "completed" ∧ (v k).status ≠ some "failed") :
    ∀ (fuel : ℕ) (s : LoopSt),
      ((runCreateLoop polls elA fuel s).2 = .condFalse ∨
        (runCreateLoop polls elA fuel s).2 = .fuelOut) ∧
      s.k ≤ (runCreateLoop polls elA fuel s).1.k ∧
      (1 ≤ fuel → s.eUsed < 600 → s.k < (runCreateLoop polls elA fuel s).1.k) ∧
      (((runCreateLoop polls elA fuel s).1.k = s.k ∧
        (runCreateLoop polls elA fuel s).1.finalRes = s.finalRes) ∨
       (∃ j, s.k ≤ j ∧ (runCreateLoop polls elA fuel s).1.k = j + 1 ∧
         (runCreateLoop polls elA fuel s).1.finalRes = some (v j))) := by
  intro fuel
  induction fuel with
  | zero =>
    intro s
    rw [runCreateLoop_zero]
    split_ifs <;>
      exact ⟨by simp, le_refl _, fun h _ => absurd h (by omega),
        Or.inl ⟨rfl, rfl⟩⟩
  | succ fuel ih =>
    intro s
    rw [runCreateLoop_succ]
    by_cases hcond : s.eUsed < 600
    · rw [if_pos hcond, createStep_ok polls elA (hp s.k)]
      have h3 := (hnt s.k).1
      have h4 := (hnt s.k).2
      split_ifs with h1 h2
      · have H := ih
          { k := s.k + 1
            eUsed := elA s.k
            record := { s.record with
                        progress := 10 + timeProgress s.eUsed
                        message := "Video queued on server..." }
            finalRes := some (v s.k)
            hist := s.hist ++ [{ s.record with
                        progress := 10 + timeProgress s.eUsed
                        message := "Video queued on server..." }] }
        refine ⟨H.1, le_trans (Nat.le_succ s.k) H.2.1,
          fun _ _ => lt_of_lt_of_le (Nat.lt_succ_self s.k) H.2.1, ?_⟩
        rcases H.2.2.2 with ⟨hk, hfr⟩ | ⟨j, hj1, hj2, hj3⟩
        · exact Or.inr ⟨s.k, le_refl _, hk, hfr⟩
        · exact Or.inr ⟨j, le_trans (Nat.le_succ s.k) hj1, hj2, hj3⟩
      · have H := ih
          { k := s.k + 1
            eUsed := elA s.k
            record := { s.record with
                        progress := 10 + timeProgress s.eUsed
                        message := "Generating video..." }
            finalRes := some (v s.k)
            hist := s.hist ++ [{ s.record with
                        progress := 10 + timeProgress s.eUsed
                        message := "Generating video..." }] }
        refine ⟨H.1, le_trans (Nat.le_succ s.k) H.2.1,
          fun _ _ => lt_of_lt_of_le (Nat.lt_succ_self s.k) H.2.1, ?_⟩
        rcases H.2.2.2 with ⟨hk, hfr⟩ | ⟨j, hj1, hj2, hj3⟩
        · exact Or.inr ⟨s.k, le_refl _, hk, hfr⟩
        · exact Or.inr ⟨j, le_trans (Nat.le_succ s.k) hj1, hj2, hj3⟩
      · have H := ih
          { k := s.k + 1
            eUsed := elA s.k
            record := { s.record with
                        progress := 10 + timeProgress s.eUsed
                        message := "Status: " ++ pyStr (v s.k).status ++ "..." }
            finalRes := some (v s.k)
            hist := s.hist ++ [{ s.record with
                        progress := 10 + timeProgress s.eUsed
                        message := "Status: " ++ pyStr (v s.k).status ++ "..." }] }
        refine ⟨H.1, le_trans (Nat.le_succ s.k) H.2.1,
          fun _ _ => lt_of_lt_of_le (Nat.lt_succ_self s.k) H.2.1, ?_⟩
        rcases H.2.2.2 with ⟨hk, hfr⟩ | ⟨j, hj1, hj2, hj3⟩
        · exact Or.inr ⟨s.k, le_refl _, hk, hfr⟩
        · exact Or.inr ⟨j, le_trans (Nat.le_succ s.k) hj1, hj2, hj3⟩
    · rw [if_neg hcond]
      exact ⟨Or.inl rfl, le_refl _, fun _ h => absurd h hcond,
        Or.inl ⟨rfl, rfl⟩⟩

/-- Remix analog of `runCreateLoop_nonterminal`. -/
theorem runRemixLoop_nonterminal (polls : ℕ → Except PyExn RemoteView)
    (elA : ℕ → ℚ) (v : ℕ → RemoteView)
    (hp : ∀ k, polls k = .ok (v k))
    (hnt : ∀ k, (v k).status ≠ some "completed" ∧ (v k).status ≠ some "failed") :
    ∀ (fuel : ℕ) (s : RemixSt),
      ((runRemixLoop polls elA fuel s).2 = .condFalse ∨
        (runRemixLoop polls elA fuel s).2 = .fuelOut) ∧
      s.k ≤ (runRemixLoop polls elA fuel s).1.k ∧
      (1 ≤ fuel → s.eUsed < 600 → s.k < (runRemixLoop polls elA fuel s).1.k) ∧
      (((runRemixLoop polls elA fuel s).1.k = s.k ∧
        (runRemixLoop polls elA fuel s).1.finalRes = s.finalRes) ∨
       (∃ j, s.k ≤ j ∧ (runRemixLoop polls elA fuel s).1.k = j + 1 ∧
         (runRemixLoop polls elA fuel s).1.finalRes = some (v j))) := by
  intro fuel
  induction fuel with
  | zero =>
    intro s
    rw [runRemixLoop_zero]
    split_ifs <;>
      exact ⟨by simp, le_refl _, fun h _ => absurd h (by omega),
        Or.inl ⟨rfl, rfl⟩⟩
  | succ fuel ih =>
    intro s
    rw [runRemixLoop_succ]
    by_cases hcond : s.eUsed < 600
    · rw [if_pos hcond, remixStep_ok polls elA (hp s.k)]
      have h3 := (hnt s.k).1
      have h4 := (hnt s.k).2
      split_ifs with h1 h2
      · have H := ih
          { k := s.k + 1
            eUsed := elA s.k
            record := { s.record with
                        progress := 10 + timeProgress s.eUsed
                        message := "Remix queued on server..." }
            finalRes := some (v s.k)
            hist := s.hist ++ [{ s.record with
                        progress := 10 + timeProgress s.eUsed
                        message := "Remix queued on server..." }]
            consec := 0 }
        refine ⟨H.1, le_trans (Nat.le_succ s.k) H.2.1,
          fun _ _ => lt_of_lt_of_le (Nat.lt_succ_self s.k) H.2.1, ?_⟩
        rcases H.2.2.2 with ⟨hk, hfr⟩ | ⟨j, hj1, hj2, hj3⟩
        · exact Or.inr ⟨s.k, le_refl _, hk, hfr⟩
        · exact Or.inr ⟨j, le_trans (Nat.le_succ s.k) hj1, hj2, hj3⟩
      · have H := ih
          { k := s.k + 1
            eUsed := elA s.k
            record := { s.record with
                        progress := 10 + timeProgress s.eUsed
                        message := "Generating remixed video..." }
            finalRes := some (v s.k)
            hist := s.hist ++ [{ s.record with
                        progress := 10 + timeProgress s.eUsed
                        message := "Generating remixed video..." }]
            consec := 0 }
        refine ⟨H.1, le_trans (Nat.le_succ s.k) H.2.1,
          fun _ _ => lt_of_lt_of_le (Nat.lt_succ_self s.k) H.2.1, ?_⟩
        rcases H.2.2.2 with ⟨hk, hfr⟩ | ⟨j, hj1, hj2, hj3⟩
        · exact Or.inr ⟨s.k, le_refl _, hk, hfr⟩
        · exact Or.inr ⟨j, le_trans (Nat.le_succ s.k) hj1, hj2, hj3⟩
      · have H := ih
          { k := s.k + 1
            eUsed := elA s.k
            record := { s.record with
                        progress := 10 + timeProgress s.eUsed
                        message := "Status: " ++ pyStr (v s.k).status ++ "..." }
            finalRes := some (v s.k)
            hist := s.hist ++ [{ s.record with
                        progress := 10 + timeProgress s.eUsed
                        message := "Status: " ++ pyStr (v s.k).status ++ "..." }]
            consec := 0 }
        refine ⟨H.1, le_trans (Nat.le_succ s.k) H.2.1,
          fun _ _ => lt_of_lt_of_le (Nat.lt_succ_self s.k) H.2.1, ?_⟩
        rcases H.2.2.2 with ⟨hk, hfr⟩ | ⟨j, hj1, hj2, hj3⟩
        · exact Or.inr ⟨s.k, le_refl _, hk, hfr⟩
        · exact Or.inr ⟨j, le_trans (Nat.le_succ s.k) hj1, hj2, hj3⟩
    · rw [if_neg hcond]
      exact ⟨Or.inl rfl, le_refl _, fun _ h => absurd h hcond,
        Or.inl ⟨rfl, rfl⟩⟩

/-- **C3.**  A task that exhausts the 600-second wall-clock budget
without ever observing a terminal remote status (all polls succeed with
statuses outside `completed`/`failed`/`cancelled`/`incomplete`) aborts:
the loop ends by the budget check, no download happens, and the
terminal registry record has local status `failed` with the last polled
snapshot attached — whose remote status is *not* `failed` — and a
message embedding that non-terminal status.  By contrast (last two
conjuncts) a remote-reported failure produces a record whose attached
snapshot has remote status `failed` and whose message is the fixed
`"...: failed"` string, so the two terminal records are distinguishable
by their `result` status and by their message.  Proven for the create
and the remix task. -/
theorem C3_timeout_distinguishable_from_remote_failure :
    (∀ (polls : ℕ → Except PyExn RemoteView) (elA : ℕ → ℚ)
        (v : ℕ → RemoteView) (res : RemoteView) (fuel : ℕ),
      (∀ k, polls k = .ok (v k)) →
      (∀ k t, (v k).status = some t →
        t ∉ (["completed", "failed", "cancelled", "incomplete"] : List String)) →
      (∀ k : ℕ, 3 * ((k : ℚ) + 1) ≤ elA k) →
      201 ≤ fuel →
      (create_video_async (.ok res) polls elA fuel).fuelOut = false ∧
      (create_video_async (.ok res) polls elA fuel).effects = [] ∧
      ∃ r, (create_video_async (.ok res) polls elA fuel).hist.getLast?
          = some r ∧
        r.status = "failed" ∧
        ∃ j, r.result = some (v j) ∧
          r.message = "Video generation failed: " ++ pyStr (v j).status ∧
          (v j).status ≠ some "failed") ∧
    (∀ (polls : ℕ → Except PyExn RemoteView) (elA : ℕ → ℚ)
        (v : ℕ → RemoteView) (res : RemoteView) (fuel : ℕ),
      (∀ k, polls k = .ok (v k)) →
      (∀ k t, (v k).status = some t →
        t ∉ (["completed", "failed", "cancelled", "incomplete"] : List String)) →
      (∀ k : ℕ, 3 * ((k : ℚ) + 1) ≤ elA k) →
      201 ≤ fuel →
      (remix_video_async (.ok res) polls elA fuel).fuelOut = false ∧
      (remix_video_async (.ok res) polls elA fuel).effects = [] ∧
      ∃ r, (remix_video_async (.ok res) polls elA fuel).hist.getLast?
          = some r ∧
        r.status = "failed" ∧
        ∃ j, r.result = some (v j) ∧
          r.message = "Video remix failed: " ++ pyStr (v j).status ∧
          (v j).status ≠ some "failed") ∧
    (∀ (polls : ℕ → Except PyExn RemoteView) (elA : ℕ → ℚ)
        (v res : RemoteView) (fuel : ℕ),
      polls 0 = .ok v → v.status = some "failed" → 1 ≤ fuel →
      ∃ r, (create_video_async (.ok res) polls elA fuel).hist.getLast?
          = some r ∧
        r.status = "failed" ∧ r.result = some v ∧
        r.message = "Video generation failed: failed") ∧
    (∀ (polls : ℕ → Except PyExn RemoteView) (elA : ℕ → ℚ)
        (v res : RemoteView) (fuel : ℕ),
      polls 0 = .ok v → v.status = some "failed" → 1 ≤ fuel →
      ∃ r, (remix_video_async (.ok res) polls elA fuel).hist.getLast?
          = some r ∧
        r.status = "failed" ∧ r.result = some v ∧
        r.message = "Video remix failed: failed") := by
  have hcq : ∀ v : RemoteView, v.status = some "failed" →
      ¬ v.status = some "queued" := by intro v h; simp [h]
  have hcip : ∀ v : RemoteView, v.status = some "failed" →
      ¬ v.status = some "in_progress" := by intro v h; simp [h]
  have hcc : ∀ v : RemoteView, v.status = some "failed" →
      ¬ v.status = some "completed" := by intro v h; simp [h]
  refine ⟨?_, ?_, ?_, ?_⟩
  · intro polls elA v res fuel hp hσ hE hfuel
    have hnt : ∀ k, (v k).status ≠ some "completed" ∧
        (v k).status ≠ some "failed" := by
      intro k
      exact ⟨fun h => hσ k "completed" h (by decide),
        fun h => hσ k "failed" h (by decide)⟩
    rcases hrun : runCreateLoop polls elA fuel (createInit res) with ⟨s', ex⟩
    have Hnf := runCreateLoop_no_fuelOut polls elA hE fuel (createInit res)
      (Or.inl ⟨rfl, rfl⟩) (by show 201 ≤ 0 + fuel; omega)
    rw [hrun] at Hnf
    have HL := runCreateLoop_nonterminal polls elA v hp hnt fuel (createInit res)
    rw [hrun] at HL
    have hexf : ex ≠ .fuelOut := Hnf
    have hex : ex = .condFalse := by
      rcases HL.1 with h | h
      · exact h
      · exact absurd h hexf
    have hk1 : 0 < s'.k :=
      HL.2.2.1 (by omega) (by show (0 : ℚ) < 600; norm_num)
    have hfr : ∃ j, s'.finalRes = some (v j) := by
      rcases HL.2.2.2 with ⟨hk, _⟩ | ⟨j, _, _, hj⟩
      · exfalso
        have hk0 : s'.k = 0 := hk
        omega
      · exact ⟨j, hj⟩
    obtain ⟨j, hj⟩ := hfr
    subst hex
    rw [create_async_condFalse polls elA fuel res s' hrun]
    unfold createFinish
    simp only [hj, if_neg (hnt j).1]
    exact ⟨trivial, trivial, _, List.getLast?_concat _, rfl, j, rfl, rfl, (hnt j).2⟩
  · intro polls elA v res fuel hp hσ hE hfuel
    have hnt : ∀ k, (v k).status ≠ some "completed" ∧
        (v k).status ≠ some "failed" := by
      intro k
      exact ⟨fun h => hσ k "completed" h (by decide),
        fun h => hσ k "failed" h (by decide)⟩
    rcases hrun : runRemixLoop polls elA fuel (remixInit res) with ⟨s', ex⟩
    have Hnf := runRemixLoop_no_fuelOut polls elA hE fuel (remixInit res)
      (Or.inl ⟨rfl, rfl⟩) (by show 201 ≤ 0 + fuel; omega)
    rw [hrun] at Hnf
    have HL := runRemixLoop_nonterminal polls elA v hp hnt fuel (remixInit res)
    rw [hrun] at HL
    have hexf : ex ≠ .fuelOut := Hnf
    have hex : ex = .condFalse := by
      rcases HL.1 with h | h
      · exact h
      · exact absurd h hexf
    have hk1 : 0 < s'.k :=
      HL.2.2.1 (by omega) (by show (0 : ℚ) < 600; norm_num)
    have hfr : ∃ j, s'.finalRes = some (v j) := by
      rcases HL.2.2.2 with ⟨hk, _⟩ | ⟨j, _, _, hj⟩
      · exfalso
        have hk0 : s'.k = 0 := hk
        omega
      · exact ⟨j, hj⟩
    obtain ⟨j, hj⟩ := hfr
    subst hex
    rw [remix_async_condFalse polls elA fuel res s' hrun]
    unfold remixFinish
    simp only [hj, if_neg (hnt j).1]
    exact ⟨trivial, trivial, _, List.getLast?_concat _, rfl, j, rfl, rfl, (hnt j).2⟩
  · intro polls elA v res fuel hp hv hf
    obtain ⟨f, rfl⟩ : ∃ f, fuel = f + 1 := ⟨fuel - 1, by omega⟩
    have hcond : (createInit res).eUsed < 600 := by norm_num [createInit]
    have hrun : runCreateLoop polls elA (f + 1) (createInit res) =
        ({ createInit res with
           k := (createInit res).k + 1
           finalRes := some v }, .broke) := by
      rw [runCreateLoop_succ, if_pos hcond, createStep_ok polls elA hp,
        if_neg (hcq v hv), if_neg (hcip v hv), if_neg (hcc v hv), if_pos hv]
    rw [create_async_broke polls elA (f + 1) res _ hrun]
    unfold createFinish
    simp only [if_neg (hcc v hv)]
    refine ⟨_, List.getLast?_concat _, rfl, rfl, ?_⟩
    show ("Video generation failed: " ++ pyStr v.status) =
      "Video generation failed: failed"
    rw [hv]
    rfl
  · intro polls elA v res fuel hp hv hf
    obtain ⟨f, rfl⟩ : ∃ f, fuel = f + 1 := ⟨fuel - 1, by omega⟩
    have hcond : (remixInit res).eUsed < 600 := by norm_num [remixInit]
    have hrun : runRemixLoop polls elA (f + 1) (remixInit res) =
        ({ remixInit res with
           k := (remixInit res).k + 1
           consec := 0
           finalRes := some v }, .broke) := by
      rw [runRemixLoop_succ, if_pos hcond, remixStep_ok polls elA hp,
        if_neg (hcq v hv), if_neg (hcip v hv), if_neg (hcc v hv), if_pos hv]
    rw [remix_async_broke polls elA (f + 1) res _ hrun]
    unfold remixFinish
    simp only [if_neg (hcc v hv)]
    refine ⟨_, List.getLast?_concat _, rfl, rfl, ?_⟩
    show ("Video remix failed: " ++ pyStr v.status) =
      "Video remix failed: failed"
    rw [hv]
    rfl

/-- Witness for C3: polls stuck at `in_progress` with wall-clock
readings jumping past the budget exercise the timeout conjunct; the
always-`failed` oracle exercises the remote-failure conjunct. -/
theorem C3_timeout_distinguishable_from_remote_failure_witness :
    ((create_video_async (.ok okSubmit)
        (fun _ => .ok { id := some "vid_1", status := some "in_progress" })
        (fun k => max 600 (3 * ((k : ℚ) + 1))) 201).fuelOut = false ∧
      (create_video_async (.ok okSubmit)
        (fun _ => .ok { id := some "vid_1", status := some "in_progress" })
        (fun k => max 600 (3 * ((k : ℚ) + 1))) 201).effects = [] ∧
      ∃ r, (create_video_async (.ok okSubmit)
          (fun _ => .ok { id := some "vid_1", status := some "in_progress" })
          (fun k => max 600 (3 * ((k : ℚ) + 1))) 201).hist.getLast? = some r ∧
        r.status = "failed" ∧
        ∃ _j : ℕ, r.result =
            some { id := some "vid_1", status := some "in_progress" } ∧
          r.message = "Video generation failed: " ++
            pyStr (some "in_progress") ∧
          (some "in_progress" : Option String) ≠ some "failed") ∧
    (∃ r, (create_video_async (.ok okSubmit) failedPolls
          (fun _ => 0) 300).hist.getLast? = some r ∧
        r.status = "failed" ∧
        r.result = some { id := some "vid_1", status := some "failed" } ∧
        r.message = "Video generation failed: failed") :=
  ⟨C3_timeout_distinguishable_from_remote_failure.1
      (fun _ => .ok { id := some "vid_1", status := some "in_progress" })
      (fun k => max 600 (3 * ((k : ℚ) + 1)))
      (fun _ => { id := some "vid_1", status := some "in_progress" })
      okSubmit 201 (fun _ => rfl)
      (fun k t h => by cases h; decide)
      (fun k => le_max_right _ _) le_rfl,
   C3_timeout_distinguishable_from_remote_failure.2.2.1 failedPolls
      (fun _ => 0) _ okSubmit 300 rfl rfl (by norm_num)⟩

/-! ### Monotonicity of the written progress values -/

theorem timeProgress_le (e : ℚ) : timeProgress e ≤ 75 := min_le_left _ _

theorem timeProgress_mono {e1 e2 : ℚ} (h0 : 0 ≤ e1) (h : e1 ≤ e2) :
    timeProgress e1 ≤ timeProgress e2 := by
  have h2 : (0 : ℚ) ≤ e2 := le_trans h0 h
  unfold timeProgress pyInt
  rw [if_pos (show (0 : ℚ) ≤ e1 / 600 * 75 by positivity),
    if_pos (show (0 : ℚ) ≤ e2 / 600 * 75 by positivity)]
  refine min_le_min (le_refl _) (Int.floor_le_floor ?_)
  gcongr

theorem chain_append_one {l : List JobRecord} {x : JobRecord}
    (h : List.Chain' (fun a b => a.progress ≤ b.progress) l)
    (hl : ∀ r ∈ l.getLast?, r.progress ≤ x.progress) :
    List.Chain' (fun a b => a.progress ≤ b.progress) (l ++ [x]) := by
  rw [List.chain'_append]
  refine ⟨h, List.chain'_singleton _, ?_⟩
  intro a ha b hb
  have hbx : x = b := by simpa using hb
  subst hbx
  exact hl a ha

theorem create_async_fuelOut (polls : ℕ → Except PyExn RemoteView)
    (elA : ℕ → ℚ) (fuel : ℕ) (res : RemoteView) (s' : LoopSt)
    (h : runCreateLoop polls elA fuel (createInit res) = (s', .fuelOut)) :
    create_video_async (.ok res) polls elA fuel =
      { hist := s'.hist, effects := [], pollsMade := s'.k, fuelOut := true } := by
  simp only [create_video_async, h]

theorem remix_async_fuelOut (polls : ℕ → Except PyExn RemoteView)
    (elA : ℕ → ℚ) (fuel : ℕ) (res : RemoteView) (s' : RemixSt)
    (h : runRemixLoop polls elA fuel (remixInit res) = (s', .fuelOut)) :
    remix_video_async (.ok res) polls elA fuel =
      { hist := s'.hist, effects := [], pollsMade := s'.k, fuelOut := true } := by
  simp only [remix_video_async, h]

/-- Invariant of the create poll loop: the registry history stays a
non-decreasing progress chain, its last element is the current record,
and the current record's progress never exceeds
`10 + timeProgress elapsed` (hence 85). -/
theorem runCreateLoop_chain (polls : ℕ → Except PyExn RemoteView)
    (elA : ℕ → ℚ) (hnn : ∀ k, 0 ≤ elA k)
    (hmono : ∀ i j : ℕ, i ≤ j → elA i ≤ elA j) :
    ∀ (fuel : ℕ) (s : LoopSt),
      List.Chain' (fun a b => a.progress ≤ b.progress) s.hist →
      s.hist.getLast? = some s.record →
      s.record.progress ≤ 10 + timeProgress s.eUsed →
      0 ≤ s.eUsed →
      ((s.k = 0 ∧ s.eUsed = 0) ∨ (1 ≤ s.k ∧ s.eUsed = elA (s.k - 1))) →
      List.Chain' (fun a b => a.progress ≤ b.progress)
          (runCreateLoop polls elA fuel s).1.hist ∧
        (runCreateLoop polls elA fuel s).1.hist.getLast?
          = some (runCreateLoop polls elA fuel s).1.record ∧
        (runCreateLoop polls elA fuel s).1.record.progress ≤ 85 := by
  intro fuel
  induction fuel with
  | zero =>
    intro s hch hgl hpb hnn0 _htime
    rw [runCreateLoop_zero]
    have hb : s.record.progress ≤ 85 :=
      le_trans hpb (by have := timeProgress_le s.eUsed; omega)
    split_ifs <;> exact ⟨hch, hgl, hb⟩
  | succ fuel ih =>
    intro s hch hgl hpb hnn0 htime
    rw [runCreateLoop_succ]
    by_cases hcond : s.eUsed < 600
    · rw [if_pos hcond]
      have hle : s.eUsed ≤ elA s.k := by
        rcases htime with ⟨_hk0, he0⟩ | ⟨hk1, he⟩
        · rw [he0]; exact hnn s.k
        · rw [he]; exact hmono (s.k - 1) s.k (by omega)
      have hb85 : s.record.progress ≤ 85 :=
        le_trans hpb (by have := timeProgress_le s.eUsed; omega)
      cases hp : polls s.k with
      | error e =>
        rw [createStep_error polls elA hp]
        exact ⟨hch, hgl, hb85⟩
      | ok v =>
        rw [createStep_ok polls elA hp]
        split_ifs with h1 h2 h3 h4
        · refine ih _ ?_ (List.getLast?_concat _) ?_ (hnn s.k)
            (Or.inr ⟨by show 1 ≤ s.k + 1; omega, rfl⟩)
          · refine chain_append_one hch ?_
            intro r hr
            rw [hgl] at hr
            have hx : s.record = r := by simpa using hr
            subst hx
            exact hpb
          · show (10 : Int) + timeProgress s.eUsed
              ≤ 10 + timeProgress (elA s.k)
            have := timeProgress_mono hnn0 hle
            omega
        · refine ih _ ?_ (List.getLast?_concat _) ?_ (hnn s.k)
            (Or.inr ⟨by show 1 ≤ s.k + 1; omega, rfl⟩)
          · refine chain_append_one hch ?_
            intro r hr
            rw [hgl] at hr
            have hx : s.record = r := by simpa using hr
            subst hx
            exact hpb
          · show (10 : Int) + timeProgress s.eUsed
              ≤ 10 + timeProgress (elA s.k)
            have := timeProgress_mono hnn0 hle
            omega
        · exact ⟨hch, hgl, hb85⟩
        · exact ⟨hch, hgl, hb85⟩
        · refine ih _ ?_ (List.getLast?_concat _) ?_ (hnn s.k)
            (Or.inr ⟨by show 1 ≤ s.k + 1; omega, rfl⟩)
          · refine chain_append_one hch ?_
            intro r hr
            rw [hgl] at hr
            have hx : s.record = r := by simpa using hr
            subst hx
            exact hpb
          · show (10 : Int) + timeProgress s.eUsed
              ≤ 10 + timeProgress (elA s.k)
            have := timeProgress_mono hnn0 hle
            omega
    · rw [if_neg hcond]
      exact ⟨hch, hgl,
        le_trans hpb (by have := timeProgress_le s.eUsed; omega)⟩

/-- Remix analog of `runCreateLoop_chain`; the tolerated-error branch
rewrites the current progress value unchanged. -/
theorem runRemixLoop_chain (polls : ℕ → Except PyExn RemoteView)
    (elA : ℕ → ℚ) (hnn : ∀ k, 0 ≤ elA k)
    (hmono : ∀ i j : ℕ, i ≤ j → elA i ≤ elA j) :
    ∀ (fuel : ℕ) (s : RemixSt),
      List.Chain' (fun a b => a.progress ≤ b.progress) s.hist →
      s.hist.getLast? = some s.record →
      s.record.progress ≤ 10 + timeProgress s.eUsed →
      0 ≤ s.eUsed →
      ((s.k = 0 ∧ s.eUsed = 0) ∨ (1 ≤ s.k ∧ s.eUsed = elA (s.k - 1))) →
      List.Chain' (fun a b => a.progress ≤ b.progress)
          (runRemixLoop polls elA fuel s).1.hist ∧
        (runRemixLoop polls elA fuel s).1.hist.getLast?
          = some (runRemixLoop polls elA fuel s).1.record ∧
        (runRemixLoop polls elA fuel s).1.record.progress ≤ 85 := by
  intro fuel
  induction fuel with
  | zero =>
    intro s hch hgl hpb hnn0 _htime
    rw [runRemixLoop_zero]
    have hb : s.record.progress ≤ 85 :=
      le_trans hpb (by have := timeProgress_le s.eUsed; omega)
    split_ifs <;> exact ⟨hch, hgl, hb⟩
  | succ fuel ih =>
    intro s hch hgl hpb hnn0 htime
    rw [runRemixLoop_succ]
    by_cases hcond : s.eUsed < 600
    · rw [if_pos hcond]
      have hle : s.eUsed ≤ elA s.k := by
        rcases htime with ⟨_hk0, he0⟩ | ⟨hk1, he⟩
        · rw [he0]; exact hnn s.k
        · rw [he]; exact hmono (s.k - 1) s.k (by omega)
      have hb85 : s.record.progress ≤ 85 :=
        le_trans hpb (by have := timeProgress_le s.eUsed; omega)
      cases hp : polls s.k with
      | error e =>
        rw [remixStep_error polls elA hp]
        by_cases h5 : 5 ≤ s.consec + 1
        · rw [if_pos h5]
          exact ⟨hch, hgl, hb85⟩
        · rw [if_neg h5]
          refine ih _ ?_ (List.getLast?_concat _) ?_ (hnn s.k)
            (Or.inr ⟨by show 1 ≤ s.k + 1; omega, rfl⟩)
          · refine chain_append_one hch ?_
            intro r hr
            rw [hgl] at hr
            have hx : s.record = r := by simpa using hr
            subst hx
            exact le_refl _
          · show s.record.progress ≤ 10 + timeProgress (elA s.k)
            exact le_trans hpb
              (by have := timeProgress_mono hnn0 hle; omega)
      | ok v =>
        rw [remixStep_ok polls elA hp]
        split_ifs with h1 h2 h3 h4
        · refine ih _ ?_ (List.getLast?_concat _) ?_ (hnn s.k)
            (Or.inr ⟨by show 1 ≤ s.k + 1; omega, rfl⟩)
          · refine chain_append_one hch ?_
            intro r hr
            rw [hgl] at hr
            have hx : s.record = r := by simpa using hr
            subst hx
            exact hpb
          · show (10 : Int) + timeProgress s.eUsed
              ≤ 10 + timeProgress (elA s.k)
            have := timeProgress_mono hnn0 hle
            omega
        · refine ih _ ?_ (List.getLast?_concat _) ?_ (hnn s.k)
            (Or.inr ⟨by show 1 ≤ s.k + 1; omega, rfl⟩)
          · refine chain_append_one hch ?_
            intro r hr
            rw [hgl] at hr
            have hx : s.record = r := by simpa using hr
            subst hx
            exact hpb
          · show (10 : Int) + timeProgress s.eUsed
              ≤ 10 + timeProgress (elA s.k)
            have := timeProgress_mono hnn0 hle
            omega
        · exact ⟨hch, hgl, hb85⟩
        · exact ⟨hch, hgl, hb85⟩
        · refine ih _ ?_ (List.getLast?_concat _) ?_ (hnn s.k)
            (Or.inr ⟨by show 1 ≤ s.k + 1; omega, rfl⟩)
          · refine chain_append_one hch ?_
            intro r hr
            rw [hgl] at hr
            have hx : s.record = r := by simpa using hr
            subst hx
            exact hpb
          · show (10 : Int) + timeProgress s.eUsed
              ≤ 10 + timeProgress (elA s.k)
            have := timeProgress_mono hnn0 hle
            omega
    · rw [if_neg hcond]
      exact ⟨hch, hgl,
        le_trans hpb (by have := timeProgress_le s.eUsed; omega)⟩

/-- The post-loop code of `create_video_async` preserves the
progress chain (it appends 90, 100 on completion, an unchanged value
otherwise). -/
theorem createFinish_chain (vid : Option String) (s : LoopSt)
    (hch : List.Chain' (fun a b => a.progress ≤ b.progress) s.hist)
    (hgl : s.hist.getLast? = some s.record)
    (hb : s.record.progress ≤ 85) :
    List.Chain' (fun a b => a.progress ≤ b.progress)
      (createFinish vid s).hist := by
  unfold createFinish
  split
  · refine chain_append_one hch ?_
    intro r hr
    rw [hgl] at hr
    have hx : s.record = r := by simpa using hr
    subst hx
    exact le_refl _
  · rename_i fin
    split_ifs with hcm
    · show List.Chain' _ (s.hist ++ [_, _])
      rw [show ∀ a b : JobRecord, s.hist ++ [a, b] = (s.hist ++ [a]) ++ [b]
        from fun a b => by simp]
      refine chain_append_one (chain_append_one hch ?_) ?_
      · intro r hr
        rw [hgl] at hr
        have hx : s.record = r := by simpa using hr
        subst hx
        show s.record.progress ≤ (90 : Int)
        omega
      · intro r hr
        rw [List.getLast?_concat] at hr
        have hrr := Option.mem_some_iff.mp hr
        subst hrr
        show (90 : Int) ≤ 100
        norm_num
    · refine chain_append_one hch ?_
      intro r hr
      rw [hgl] at hr
      have hx : s.record = r := by simpa using hr
      subst hx
      exact le_refl _

/-- Remix analog of `createFinish_chain`. -/
theorem remixFinish_chain (vid : Option String) (s : RemixSt)
    (hch : List.Chain' (fun a b => a.progress ≤ b.progress) s.hist)
    (hgl : s.hist.getLast? = some s.record)
    (hb : s.record.progress ≤ 85) :
    List.Chain' (fun a b => a.progress ≤ b.progress)
      (remixFinish vid s).hist := by
  unfold remixFinish
  split
  · refine chain_append_one hch ?_
    intro r hr
    rw [hgl] at hr
    have hx : s.record = r := by simpa using hr
    subst hx
    exact le_refl _
  · rename_i fin
    split_ifs with hcm
    · show List.Chain' _ (s.hist ++ [_, _])
      rw [show ∀ a b : JobRecord, s.hist ++ [a, b] = (s.hist ++ [a]) ++ [b]
        from fun a b => by simp]
      refine chain_append_one (chain_append_one hch ?_) ?_
      · intro r hr
        rw [hgl] at hr
        have hx : s.record = r := by simpa using hr
        subst hx
        show s.record.progress ≤ (90 : Int)
        omega
      · intro r hr
        rw [List.getLast?_concat] at hr
        have hrr := Option.mem_some_iff.mp hr
        subst hrr
        show (90 : Int) ≤ 100
        norm_num
    · refine chain_append_one hch ?_
      intro r hr
      rw [hgl] at hr
      have hx : s.record = r := by simpa using hr
      subst hx
      exact le_refl _

/-- **C6.**  Within one task — create or remix — the progress values
written to the registry form a non-decreasing sequence over the task's
whole lifetime, for every submission outcome, every poll trace, and
every wall-clock behavior (readings non-negative and non-decreasing):
initial 0, then 10 on submission (`createR1`/`remixR1`), then
`10 + timeProgress elapsed ≤ 85` at each poll, an unchanged value on a
tolerated remix polling error, 90 on `downloading` and 100 on
`completed`, and unchanged values on the `failed`/`error` paths. -/
theorem C6_progress_monotone (submitRes : Except PyExn RemoteView)
    (polls : ℕ → Except PyExn RemoteView) (elA : ℕ → ℚ) (fuel : ℕ)
    (hnn : ∀ k, 0 ≤ elA k) (hmono : ∀ i j : ℕ, i ≤ j → elA i ≤ elA j) :
    List.Chain' (fun a b => a.progress ≤ b.progress)
      (create_video_async submitRes polls elA fuel).hist ∧
    List.Chain' (fun a b => a.progress ≤ b.progress)
      (remix_video_async submitRes polls elA fuel).hist := by
  constructor
  · cases submitRes with
    | error e =>
      simp [create_video_async, List.chain'_cons, applyError, createR0]
    | ok res =>
      rcases hrun : runCreateLoop polls elA fuel (createInit res) with ⟨s', ex⟩
      have H := runCreateLoop_chain polls elA hnn hmono fuel (createInit res)
        (by simp [createInit, createR1, createR0, List.chain'_cons])
        (by show [createR0, createR1 res].getLast? = some (createR1 res); rfl)
        (by show (10 : Int) ≤ 10 + timeProgress 0
            norm_num [timeProgress, pyInt])
        (le_refl 0)
        (Or.inl ⟨rfl, rfl⟩)
      rw [hrun] at H
      have Hc : List.Chain' (fun a b => a.progress ≤ b.progress) s'.hist := H.1
      have Hg : s'.hist.getLast? = some s'.record := H.2.1
      have Hb : s'.record.progress ≤ 85 := H.2.2
      cases ex with
      | fuelOut =>
        rw [create_async_fuelOut polls elA fuel res s' hrun]
        exact Hc
      | raised e =>
        rw [create_async_raised polls elA fuel res s' e hrun]
        refine chain_append_one Hc ?_
        intro r hr
        rw [Hg] at hr
        have hx : s'.record = r := by simpa using hr
        subst hx
        exact le_refl _
      | broke =>
        rw [create_async_broke polls elA fuel res s' hrun]
        exact createFinish_chain res.id s' Hc Hg Hb
      | condFalse =>
        rw [create_async_condFalse polls elA fuel res s' hrun]
        exact createFinish_chain res.id s' Hc Hg Hb
  · cases submitRes with
    | error e =>
      simp [remix_video_async, List.chain'_cons, applyError, remixR0]
    | ok res =>
      rcases hrun : runRemixLoop polls elA fuel (remixInit res) with ⟨s', ex⟩
      have H := runRemixLoop_chain polls elA hnn hmono fuel (remixInit res)
        (by simp [remixInit, remixR1, remixR0, List.chain'_cons])
        (by show [remixR0, remixR1 res].getLast? = some (remixR1 res); rfl)
        (by show (10 : Int) ≤ 10 + timeProgress 0
            norm_num [timeProgress, pyInt])
        (le_refl 0)
        (Or.inl ⟨rfl, rfl⟩)
      rw [hrun] at H
      have Hc : List.Chain' (fun a b => a.progress ≤ b.progress) s'.hist := H.1
      have Hg : s'.hist.getLast? = some s'.record := H.2.1
      have Hb : s'.record.progress ≤ 85 := H.2.2
      cases ex with
      | fuelOut =>
        rw [remix_async_fuelOut polls elA fuel res s' hrun]
        exact Hc
      | raised e =>
        rw [remix_async_raised polls elA fuel res s' e hrun]
        refine chain_append_one Hc ?_
        intro r hr
        rw [Hg] at hr
        have hx : s'.record = r := by simpa using hr
        subst hx
        exact le_refl _
      | broke =>
        rw [remix_async_broke polls elA fuel res s' hrun]
        exact remixFinish_chain res.id s' Hc Hg Hb
      | condFalse =>
        rw [remix_async_condFalse polls elA fuel res s' hrun]
        exact remixFinish_chain res.id s' Hc Hg Hb

/-- Witness for C6 on a concrete run (constant zero clock, `cancelled`
polls, fuel 2). -/
theorem C6_progress_monotone_witness :
    List.Chain' (fun a b => a.progress ≤ b.progress)
      (create_video_async (.ok okSubmit) cancelledPolls (fun _ => 0) 2).hist ∧
    List.Chain' (fun a b => a.progress ≤ b.progress)
      (remix_video_async (.ok okSubmit) cancelledPolls (fun _ => 0) 2).hist :=
  C6_progress_monotone (.ok okSubmit) cancelledPolls (fun _ => 0) 2
    (fun _ => le_refl 0) (fun _ _ _ => le_refl 0)

end Sora
